import Mathlib

/-!
# Verification of the episode splitter / speaker attribution core

A shallow embedding, in Lean 4, of the heuristic core of
`transcribe_audio.py` (repository `spanish_helper`): the episode boundary
detector `split_by_episode_patterns`, the name extractor
`extract_speaker_names`, the gender heuristic `detect_gender`, and the
speaker attribution engine `identify_speakers`.

Modelling conventions:
* Python strings are modelled as `List Char` (with `String` at the API
  boundary); all positions are 0-based character offsets, as in Python.
* Python float arithmetic on thresholds is modelled with exact rationals
  (`ℚ`); `int(x)` is truncation toward zero (`pyInt`).  All concrete inputs
  used in theorems stay away from binary floating-point representation
  boundaries, so the rational model agrees with the Python floats there.
* The fixed regular expressions of the source are compiled by hand into
  deterministic matchers.  Each regex used by the source is free of
  essential backtracking (every greedy sub-pattern is followed by a token
  that cannot match a character the sub-pattern just consumed), so the
  direct greedy matchers below implement exactly the Python `re` semantics
  for those patterns.
* Python's `re` character classes: `\w` is Unicode-aware; the texts in this
  development only contain ASCII and Latin-1 letters, for which
  `isPyWordChar` below agrees with Python.
* Fallible Python code is modelled with `Except PyErr`; the split pass's
  restart loop is run on an ample fuel budget, with fuel exhaustion a
  distinguished error (`PyErr.outOfFuel`) that no theorem below ever hits.
-/

set_option maxRecDepth 100000

/-- Errors the Python code can raise (or resource bounds of the model). -/
inductive PyErr where
  | zeroDivision : PyErr
  | outOfFuel : PyErr
deriving DecidableEq, Repr

/-- Decidable equality of `Except` results. -/
instance exceptDecEq {ε α : Type} [DecidableEq ε] [DecidableEq α] :
    DecidableEq (Except ε α) := fun a b =>
  match a, b with
  | .error e, .error f =>
    if h : e = f then .isTrue (by rw [h])
    else .isFalse (by intro hc; injection hc; exact h (by assumption))
  | .error _, .ok _ => .isFalse (by intro hc; exact Except.noConfusion hc)
  | .ok _, .error _ => .isFalse (by intro hc; exact Except.noConfusion hc)
  | .ok x, .ok y =>
    if h : x = y then .isTrue (by rw [h])
    else .isFalse (by intro hc; injection hc; exact h (by assumption))

/-! ## Character classes (Python `re` semantics, ASCII + Latin-1 range) -/

/-- Python `str.isspace` / regex `\s` on the characters appearing in this
development (ASCII whitespace). -/
def isPySpace (c : Char) : Bool :=
  c = ' ' || c = '\t' || c = '\n' || c = '\r' || c = '\x0b' || c = '\x0c'

/-- ASCII decimal digit, Python regex `\d` for our texts. -/
def isPyDigit (c : Char) : Bool :=
  '0' ≤ c && c ≤ '9'

/-- ASCII uppercase, the regex class `[A-Z]` (ASCII-only in the source). -/
def isUpperAZ (c : Char) : Bool :=
  'A' ≤ c && c ≤ 'Z'

/-- ASCII lowercase, the regex class `[a-z]` (ASCII-only in the source). -/
def isLowerAZ (c : Char) : Bool :=
  'a' ≤ c && c ≤ 'z'

/-- Python regex `\w` restricted to ASCII plus Latin-1 letters: ASCII
alphanumerics, underscore, and the Latin-1 letter block 0xC0–0xFF without
the two operators `×` (0xD7) and `÷` (0xF7).  Agrees with Python's Unicode
`\w` on every character used in this development (`á é í ó ú ñ ü` and their
uppercase forms are word characters; `¿ ¡` are not). -/
def isPyWordChar (c : Char) : Bool :=
  isUpperAZ c || isLowerAZ c || isPyDigit c || c = '_' ||
    (0xC0 ≤ c.val && c.val ≤ 0xFF && c.val ≠ 0xD7 && c.val ≠ 0xF7)

/-- Case folding used by `re.IGNORECASE` on ASCII and Latin-1 letters. -/
def pyLower (c : Char) : Char :=
  if 'A' ≤ c && c ≤ 'Z' then Char.ofNat (c.toNat + 32)
  else if 0xC0 ≤ c.val && c.val ≤ 0xDE && c.val ≠ 0xD7 then Char.ofNat (c.toNat + 32)
  else c

/-- Case-insensitive character comparison (`re.IGNORECASE`). -/
def eqCI (a b : Char) : Bool :=
  pyLower a = pyLower b

/-! ## Python string primitives -/

/-- Python slice `text[a:b]` for `0 ≤ a, b` (clamping at the ends; an empty
result when `a ≥ b`).  All slice bounds the source computes are
nonnegative, so the wrapping of negative Python indices never arises. -/
def pySlice (l : List Char) (a b : Nat) : List Char :=
  (l.take b).drop a

/-- Python `text[a:]`. -/
def pySliceFrom (l : List Char) (a : Nat) : List Char :=
  l.drop a

/-- Python `str.strip()`: drop leading and trailing whitespace. -/
def pyStrip (l : List Char) : List Char :=
  ((l.dropWhile isPySpace).reverse.dropWhile isPySpace).reverse

/-- `str.strip()` on `String`s. -/
def pyStripS (s : String) : String :=
  String.mk (pyStrip s.data)

/-- Number of maximal `\w`-runs, i.e. `len(re.findall(r'\b\w+\b', s))`. -/
def countWords : List Char → Nat
  | [] => 0
  | c :: rest =>
    if isPyWordChar c then countWordsInWord rest else countWords rest
where
  /-- Skip the rest of the current word, then count the remaining words. -/
  countWordsInWord : List Char → Nat
    | [] => 1
    | c :: rest =>
      if isPyWordChar c then countWordsInWord rest else 1 + countWords rest

/-! ## Matchers

A matcher receives the suffix of the text starting at the current position
and returns the number of characters consumed by a match anchored there
(`none` when there is no match at this position). -/

/-- The matcher type: anchored match attempt, returning consumed length. -/
def Matcher : Type :=
  List Char → Option Nat

/-- Match a literal string case-insensitively, returning its length. -/
def mLitCI (pat : List Char) : Matcher :=
  fun s => go pat s 0
where
  go : List Char → List Char → Nat → Option Nat
    | [], _, n => some n
    | _ :: _, [], _ => none
    | p :: ps, c :: cs, n => if eqCI p c then go ps cs (n + 1) else none

/-- Match a literal string case-sensitively. -/
def mLitCS (pat : List Char) : Matcher :=
  fun s => go pat s 0
where
  go : List Char → List Char → Nat → Option Nat
    | [], _, n => some n
    | _ :: _, [], _ => none
    | p :: ps, c :: cs, n => if p = c then go ps cs (n + 1) else none

/-- Sequence two matchers. -/
def mSeq (a b : Matcher) : Matcher :=
  fun s =>
    match a s with
    | none => none
    | some n =>
      match b (s.drop n) with
      | none => none
      | some m => some (n + m)

/-- Ordered alternation (Python tries alternatives left to right). -/
def mAlt (a b : Matcher) : Matcher :=
  fun s =>
    match a s with
    | some n => some n
    | none => b s

/-- Greedy `class+`: one or more characters of a class.  Valid as a regex
model whenever the following token cannot match a character of the class
(true for every use in the source). -/
def mPlus (cls : Char → Bool) : Matcher :=
  fun s =>
    let n := (s.takeWhile cls).length
    if n = 0 then none else some n

/-- Greedy `class*` (may consume zero characters); same proviso as `mPlus`. -/
def mStar (cls : Char → Bool) : Matcher :=
  fun s => some (s.takeWhile cls).length

/-- Greedy optional sub-matcher `(...)?`; same proviso. -/
def mOpt (a : Matcher) : Matcher :=
  fun s =>
    match a s with
    | some n => some n
    | none => some 0

/-- The regex fragment `[^.]*\.`: consume everything up to and including
the first `.` (fails if there is none).  This is the exact semantics of the
greedy Python fragment, since backtracking cannot move the mandatory dot. -/
def mUptoDot : Matcher :=
  fun s =>
    let n := (s.takeWhile (fun c => c ≠ '.')).length
    if n < s.length then some (n + 1) else none

/-- `re.finditer`: all non-overlapping matches of `m`, scanning left to
right, as `(start, length)` pairs.  `fuel` is consumed one unit per text
position; `fuel = length + 1` makes the scan exact. -/
def finditerAux (m : Matcher) : Nat → List Char → Nat → List (Nat × Nat)
  | 0, _, _ => []
  | _ + 1, [], _ => []
  | fuel + 1, c :: rest, p =>
    match m (c :: rest) with
    | some n =>
      if n = 0 then finditerAux m fuel rest (p + 1)
      else (p, n) :: finditerAux m fuel (List.drop (n - 1) rest) (p + n)
    | none => finditerAux m fuel rest (p + 1)

/-- All non-overlapping matches of `m` in `l`, as `(start, length)`. -/
def finditer (m : Matcher) (l : List Char) : List (Nat × Nat) :=
  finditerAux m (l.length + 1) l 0

/-- `re.search`: the first match, as `(start, length)`. -/
def reSearch (m : Matcher) (l : List Char) : Option (Nat × Nat) :=
  (finditer m l).head?

/-- Whether `m` matches anywhere (`re.search` truthiness). -/
def reTest (m : Matcher) (l : List Char) : Bool :=
  (reSearch m l).isSome

/-! ## The fixed pattern tables of `split_by_episode_patterns`

The source scans with `re.IGNORECASE`, so the explicit `(?:X|x|X)`
alternations of the source collapse to one case-insensitive literal. -/

/-- The seven episode-introduction patterns (`intro_patterns`, all literal). -/
def intro_patterns : List (List Char) :=
  [("Hola, te doy la bienvenida a").data,
   ("¡Pu-pu-pu! Hola, te doy la bienvenida a").data,
   ("Te doy la bienvenida a").data,
   ("¿Te doy la bienvenida a").data,
   ("Hola, les doy la bienvenida a").data,
   ("Hola, esto es").data,
   ("¡Hola! Esto es").data]

/-- Matchers for `intro_patterns` (case-insensitive literals). -/
def introMatchers : List Matcher :=
  intro_patterns.map mLitCI

/-- The four episode-closing patterns (`closing_patterns`). -/
def closingMatchers : List Matcher :=
  [mSeq (mLitCI ("Gracias por escuchar").data)
     (mSeq mUptoDot (mSeq (mStar isPySpace)
       (mSeq (mLitCI ("Hasta ").data)
         (mSeq (mAlt (mLitCI ("pronto").data) (mLitCI ("la próxima").data))
           (mLitCI (".").data))))),
   mSeq (mLitCI ("Gracias por acompañarme").data)
     (mSeq mUptoDot (mSeq (mStar isPySpace)
       (mSeq (mLitCI ("Hasta ").data)
         (mSeq (mAlt (mLitCI ("pronto").data) (mLitCI ("la próxima").data))
           (mLitCI (".").data))))),
   mSeq (mLitCI ("Y así termina").data)
     (mSeq mUptoDot (mSeq (mStar isPySpace)
       (mSeq (mLitCI ("Recuerda").data)
         (mSeq mUptoDot (mSeq (mStar isPySpace)
           (mLitCI ("Hasta pronto.").data)))))),
   mSeq (mLitCI ("¡Ah! Gracias por escuchar").data)
     (mSeq mUptoDot (mSeq (mStar isPySpace)
       (mLitCI ("Nos vemos pronto.").data)))]

/-- `\s+\d+`: whitespace then digits (both mandatory, both greedy). -/
def mWsDigits : Matcher :=
  mSeq (mPlus isPySpace) (mPlus isPyDigit)

/-- The nine `english_narrator_patterns` (English and Spanish forms). -/
def narratorMatchers : List Matcher :=
  [mSeq (mLitCI ("Section").data) (mSeq mWsDigits mUptoDot),
   mSeq (mLitCI ("Section").data)
     (mSeq mWsDigits (mSeq (mPlus isPySpace)
       (mSeq (mLitCI ("Unit").data) (mSeq mWsDigits mUptoDot)))),
   mSeq (mLitCI ("Section").data)
     (mSeq mWsDigits (mSeq (mPlus isPySpace)
       (mSeq (mLitCI ("Unit").data)
         (mSeq mWsDigits (mSeq (mPlus isPySpace)
           (mSeq (mLitCI ("Radio").data) (mSeq mWsDigits mUptoDot))))))),
   mSeq (mLitCI ("Section").data)
     (mSeq mWsDigits (mSeq (mPlus isPySpace)
       (mSeq (mLitCI ("Radio").data) (mSeq mWsDigits mUptoDot)))),
   mSeq (mPlus isPyDigit)
     (mSeq (mStar isPySpace)
       (mSeq (mAlt (mLitCI ("st").data)
               (mAlt (mLitCI ("nd").data)
                 (mAlt (mLitCI ("rd").data) (mLitCI ("th").data))))
         (mSeq (mPlus isPySpace)
           (mSeq (mAlt (mLitCI ("radio").data)
                   (mAlt (mLitCI ("section").data)
                     (mAlt (mLitCI ("unit").data) (mLitCI ("part").data))))
             mUptoDot)))),
   mSeq (mLitCI ("Sección").data) (mSeq mWsDigits mUptoDot),
   mSeq (mLitCI ("Sección").data)
     (mSeq mWsDigits (mSeq (mPlus isPySpace)
       (mSeq (mAlt (mLitCI ("Unió").data) (mLitCI ("Unidad").data))
         (mSeq mWsDigits mUptoDot)))),
   mSeq (mLitCI ("Sección").data)
     (mSeq mWsDigits (mSeq (mPlus isPySpace)
       (mSeq (mAlt (mLitCI ("Unió").data) (mLitCI ("Unidad").data))
         (mSeq mWsDigits (mSeq (mPlus isPySpace)
           (mSeq (mLitCI ("Radio").data) (mSeq mWsDigits mUptoDot))))))),
   mSeq (mLitCI ("Sección").data)
     (mSeq mWsDigits (mSeq (mPlus isPySpace)
       (mSeq (mLitCI ("Radio").data) (mSeq mWsDigits mUptoDot))))]

/-- The closing-candidate lookahead
`Hola.*bienvenida|Te doy.*bienvenida|Soy \w+ y` needs real backtracking for
its `.*`; for a *test* it is equivalent to: consume same-line characters
until the target literal occurs. -/
def mSameLineUpto (target : List Char) : Matcher
  | [] => none
  | c :: rest =>
    match mLitCI target (c :: rest) with
    | some n => some n
    | none =>
      if c = '\n' then none
      else
        match mSameLineUpto target rest with
        | some n => some (n + 1)
        | none => none

/-- `re.search(r'Hola.*bienvenida|Te doy.*bienvenida|Soy \w+ y', s, re.I)`. -/
def closingNextTest (s : List Char) : Bool :=
  reTest
    (mAlt (mSeq (mLitCI ("Hola").data) (mSameLineUpto ("bienvenida").data))
      (mAlt (mSeq (mLitCI ("Te doy").data) (mSameLineUpto ("bienvenida").data))
        (mSeq (mLitCI ("Soy ").data)
          (mSeq (mPlus isPyWordChar) (mLitCI (" y").data)))))
    s

/-! ## Boundary candidate scanner (source lines 289–375) -/

/-- `text[i]` as a character test against `'.!?'`. -/
def charAtIn (text : List Char) (i : Nat) (cs : List Char) : Bool :=
  match text.drop i with
  | [] => false
  | c :: _ => cs.contains c

/-- First index `i` in `[lo, hi)` with `text[i] ∈ '.!?'` (the source's
forward scan over `range(max(0, pos-200), pos)` that breaks at the first
hit). -/
def findFirstTerminal (text : List Char) (lo hi : Nat) : Option Nat :=
  go (hi - lo) lo
where
  go : Nat → Nat → Option Nat
    | 0, _ => none
    | fuel + 1, i =>
      if charAtIn text i [('.' : Char), '!', '?'] then some i else go fuel (i + 1)

/-- Advance over whitespace while staying strictly below `hi`
(`while sentence_start < pos and text[sentence_start].isspace()`). -/
def skipWsBelow (text : List Char) (i hi : Nat) : Nat :=
  go (hi - i) i
where
  go : Nat → Nat → Nat
    | 0, j => j
    | fuel + 1, j =>
      if j < hi then
        match text.drop j with
        | [] => j
        | c :: _ => if isPySpace c then go fuel (j + 1) else j
      else j

/-- Walk a narrator match position back to the start of its sentence
(source lines 315–323). -/
def backToSentenceStart (text : List Char) (pos : Nat) : Nat :=
  match findFirstTerminal text (pos - 200) pos with
  | none => pos
  | some i => skipWsBelow text (i + 1) pos

/-- `abs(a - b) < d` on natural positions. -/
def natDistLt (a b d : Nat) : Bool :=
  (max a b - min a b) < d

/-- Add the narrator candidates of one matcher (source lines 309–332):
each match start is walked back to its sentence start; positions `> 0` are
added unless within 50 of an existing split point. -/
def addNarratorCandidates (text : List Char) (m : Matcher) (sp : List Nat) :
    List Nat :=
  (finditer m text).foldl
    (fun acc (pr : Nat × Nat) =>
      let ss := backToSentenceStart text pr.1
      if ss > 0 then
        if acc.all (fun ex => ¬ natDistLt ss ex 50) then acc ++ [ss] else acc
      else acc)
    sp

/-- Add the closing candidates of one matcher (source lines 342–349): a
closing's end position is added if the following 200 characters contain an
introduction-like phrase, or more than 100 stripped characters remain. -/
def addClosingCandidates (text : List Char) (m : Matcher) (sp : List Nat) :
    List Nat :=
  (finditer m text).foldl
    (fun acc (pr : Nat × Nat) =>
      let endPos := pr.1 + pr.2
      let nextText := pySlice text endPos (endPos + 200)
      if closingNextTest nextText then acc ++ [endPos]
      else if (pyStrip (pySliceFrom text endPos)).length > 100 then acc ++ [endPos]
      else acc)
    sp

/-- Add the introduction candidates of one matcher (source lines 362–372):
match starts beyond position 50, not within 100 of an existing split. -/
def addIntroCandidates (text : List Char) (m : Matcher) (sp : List Nat) :
    List Nat :=
  (finditer m text).foldl
    (fun acc (pr : Nat × Nat) =>
      if pr.1 > 50 then
        if acc.all (fun ex => ¬ natDistLt pr.1 ex 100) then acc ++ [pr.1] else acc
      else acc)
    sp

/-- `sorted(set(xs))`. -/
def sortedDedup (xs : List Nat) : List Nat :=
  List.insertionSort (· ≤ ·) xs.dedup

/-- The scanner's deduplicated, ascending candidate list (`split_points`
after source line 375); always contains 0. -/
def scannerCandidates (text : List Char) : List Nat :=
  let sp0 : List Nat := [0]
  let sp1 := narratorMatchers.foldl (fun acc m => addNarratorCandidates text m acc) sp0
  let sp2 := closingMatchers.foldl (fun acc m => addClosingCandidates text m acc) sp1
  let sp3 := introMatchers.foldl (fun acc m => addIntroCandidates text m acc) sp2
  sortedDedup sp3

/-! ## Name extraction (`extract_speaker_names`, source lines 822–869)

These seven patterns are compiled *without* `re.IGNORECASE`, hence the
explicit `Soy|soy` style alternations below, matched case-sensitively. -/

/-- Capture `[A-Z][a-z]+`: one ASCII capital, then one or more ASCII
lowercase letters; returns consumed length and the captured characters. -/
def capNameWord : List Char → Option (Nat × List Char)
  | [] => none
  | c :: rest =>
    if isUpperAZ c then
      let run := rest.takeWhile isLowerAZ
      if run.length = 0 then none else some (1 + run.length, c :: run)
    else none

/-- Capture `[A-Z][a-z]+(?:\s+[A-Z][a-z]+)?` (greedy optional second word;
the captured text includes the actual whitespace run between the words). -/
def capFullName (s : List Char) : Option (Nat × List Char) :=
  match capNameWord s with
  | none => none
  | some (n1, w1) =>
    let rest := s.drop n1
    let ws := rest.takeWhile isPySpace
    if ws.length = 0 then some (n1, w1)
    else
      match capNameWord (rest.drop ws.length) with
      | some (n2, w2) => some (n1 + ws.length + n2, w1 ++ ws ++ w2)
      | none => some (n1, w1)

/-- A capturing matcher: consumed length plus group-1 text. -/
def CMatcher : Type :=
  List Char → Option (Nat × List Char)

/-- Prefix matcher then `\s+` then a capture. -/
def cAfter (pre : Matcher) (cap : CMatcher) : CMatcher :=
  fun s =>
    match pre s with
    | none => none
    | some n =>
      let rest := s.drop n
      let ws := (rest.takeWhile isPySpace).length
      if ws = 0 then none
      else
        match cap (rest.drop ws) with
        | none => none
        | some (m, g) => some (n + ws + m, g)

/-- Capture then `,?\s+` then a literal-alternation suffix (for the
`"X, gracias"` and `"X, cuéntanos"` patterns). -/
def cBefore (cap : CMatcher) (suf : Matcher) : CMatcher :=
  fun s =>
    match cap s with
    | none => none
    | some (n, g) =>
      let rest := s.drop n
      let comma := match rest with
        | ',' :: _ => 1
        | _ => 0
      let rest2 := rest.drop comma
      let ws := (rest2.takeWhile isPySpace).length
      if ws = 0 then none
      else
        match suf (rest2.drop ws) with
        | none => none
        | some m => some (n + comma + ws + m, g)

/-- `(?:Hola|hola),?\s+` then a single-word capture (source pattern 4). -/
def cHolaComma : CMatcher :=
  fun s =>
    match mAlt (mLitCS ("Hola").data) (mLitCS ("hola").data) s with
    | none => none
    | some n =>
      let rest := s.drop n
      let comma := match rest with
        | ',' :: _ => 1
        | _ => 0
      let rest2 := rest.drop comma
      let ws := (rest2.takeWhile isPySpace).length
      if ws = 0 then none
      else
        match capNameWord (rest2.drop ws) with
        | none => none
        | some (m, g) => some (n + comma + ws + m, g)

/-- The seven capture patterns of `extract_speaker_names`, in source order. -/
def namePatterns : List CMatcher :=
  [cAfter (mAlt (mLitCS ("Soy").data) (mLitCS ("soy").data)) capFullName,
   cAfter (mAlt (mLitCS ("Me llamo").data) (mLitCS ("me llamo").data)) capFullName,
   cAfter (mAlt (mLitCS ("Mi nombre es").data) (mLitCS ("mi nombre es").data)) capFullName,
   cHolaComma,
   cAfter (mAlt (mLitCS ("Hola").data) (mLitCS ("hola").data)) capNameWord,
   cBefore capNameWord (mAlt (mLitCS ("gracias").data) (mLitCS ("Gracias").data)),
   cBefore capNameWord (mAlt (mLitCS ("cuéntanos").data) (mLitCS ("cuéntame").data))]

/-- `re.finditer` collecting group 1 of every non-overlapping match. -/
def findCapturesAux (cm : CMatcher) : Nat → List Char → List (List Char)
  | 0, _ => []
  | _ + 1, [] => []
  | fuel + 1, c :: rest =>
    match cm (c :: rest) with
    | some (n, g) =>
      if n = 0 then findCapturesAux cm fuel rest
      else g :: findCapturesAux cm fuel (List.drop (n - 1) rest)
    | none => findCapturesAux cm fuel rest

/-- All group-1 captures of `cm` in `l` (non-overlapping, left to right). -/
def findCaptures (cm : CMatcher) (l : List Char) : List (List Char) :=
  findCapturesAux cm (l.length + 1) l

/-- The stop-list `common_words` of the source (a Python set literal; the
duplicated `'Eso'` of the source collapses). -/
def common_words : List String :=
  ["Hola", "Gracias", "Bienvenida", "Bienvenido", "Soy", "Llamo", "Nombre",
   "Pero", "Por", "Los", "Las", "Nos", "Todo", "Tal", "Eso", "Cada",
   "Muy", "Ahora", "Antes", "Hasta", "Voy", "Hace", "Siempre", "Entonces",
   "Algunos", "Bueno", "Ideas", "Recuerda", "Pintar", "Visite", "Alegre",
   "Carros", "Colombia"]

/-- `re.findall(r'\b([A-Z][a-z]{2,})\b', text)`: capitalized tokens of
length at least 3 delimited by word boundaries, non-overlapping.  The
boolean argument tracks whether the previous character was a word
character (the left `\b`). -/
def notWordAhead (l : List Char) : Bool :=
  match l with
  | [] => true
  | d :: _ => ¬ isPyWordChar d

/-- See `findCapWords`. -/
def findCapWordsAux : Nat → Bool → List Char → List (List Char)
  | 0, _, _ => []
  | _ + 1, _, [] => []
  | fuel + 1, prevW, c :: rest =>
    if ¬ prevW ∧ isUpperAZ c then
      let run := rest.takeWhile isLowerAZ
      if 2 ≤ run.length ∧ notWordAhead (rest.drop run.length) then
        (c :: run) :: findCapWordsAux fuel true (rest.drop run.length)
      else findCapWordsAux fuel (isPyWordChar c) rest
    else findCapWordsAux fuel (isPyWordChar c) rest

/-- All `\b[A-Z][a-z]{2,}\b` tokens of `l`. -/
def findCapWords (l : List Char) : List (List Char) :=
  findCapWordsAux (l.length + 1) false l

/-- Python string `≤`: lexicographic comparison by code point (an
executable comparator; Lean's `String.decidableLE` does not reduce). -/
def pyStrLeB : List Char → List Char → Bool
  | [], _ => true
  | _ :: _, [] => false
  | x :: xs, y :: ys =>
    if x < y then true else if y < x then false else pyStrLeB xs ys

/-- The sorting relation of `sorted(...)` on Python strings. -/
def pyStrLe (a b : String) : Prop :=
  pyStrLeB a.data b.data = true

instance : DecidableRel pyStrLe := fun a b =>
  instDecidableEqBool (pyStrLeB a.data b.data) true

/-- Insert into a duplicate-free accumulator (Python `set.add`; the
insertion order is irrelevant because the result is sorted). -/
def setInsert (acc : List String) (x : String) : List String :=
  if x ∈ acc then acc else acc ++ [x]

/-- `extract_speaker_names` (source lines 822–869): pattern-matched names
filtered by the stop-list and a minimum length, plus capitalized tokens
occurring at least three times; returned sorted ascending. -/
def patternStep (acc : List String) (cap : List Char) : List String :=
  let name := String.mk (pyStrip cap)
  if name ≠ "" ∧ name ∉ common_words ∧ name.length > 2 then setInsert acc name
  else acc

/-- Add a capitalized token occurring at least three times (the frequency
heuristic of source lines 863–867). -/
def freqStep (goodWords : List String) (acc : List String) (w : String) :
    List String :=
  if 3 ≤ goodWords.count w then setInsert acc w else acc

/-- See `extract_speaker_names`. -/
def extract_speaker_names (text : List Char) : List String :=
  let acc1 := namePatterns.foldl
    (fun acc cm => (findCaptures cm text).foldl patternStep acc) []
  let capWords := (findCapWords text).map String.mk
  let goodWords := capWords.filter (fun w => w ∉ common_words)
  let acc2 := goodWords.dedup.foldl (freqStep goodWords) acc1
  List.insertionSort pyStrLe acc2

/-- `extract_speaker_names` on a `String`. -/
def extractSpeakerNamesS (text : String) : List String :=
  extract_speaker_names text.data

/-! ## Duration model (source lines 259–287) -/

/-- Python `int()` on a (here: exactly-rational) float: truncation toward
zero, i.e. T-division of the numerator by the (positive) denominator. -/
def pyInt (q : ℚ) : ℤ :=
  q.num.tdiv q.den

/-- The four character thresholds, named as in the source. -/
structure Thresholds where
  estimated_chars_per_episode : ℤ
  min_chars_per_episode : ℤ
  max_chars_per_episode : ℤ
  split_chars_per_episode : ℤ
deriving DecidableEq, Repr

/-- The duration model: `{120, 165, 210, 240} seconds × rate` when a
(truthy) duration is known and the text is non-empty, fixed character
constants otherwise.  Durations are exact rationals standing for the
Python floats. -/
def computeThresholds (textLen : Nat) (audioDuration : Option ℚ) : Thresholds :=
  match audioDuration with
  | some d =>
    if d ≠ 0 ∧ 0 < textLen then
      let chars_per_second : ℚ := (textLen : ℚ) / d
      ⟨pyInt (165 * chars_per_second), pyInt (120 * chars_per_second),
       pyInt (210 * chars_per_second), pyInt (240 * chars_per_second)⟩
    else ⟨2000, 1500, 3000, 3500⟩
  | none => ⟨2000, 1500, 3000, 3500⟩

/-! ## Segment refiner (source lines 403–758)

The pipeline state: text plus the thresholds in `Nat` form.  For the
inputs modelled here (no duration, or a positive duration) every threshold
is nonnegative, so the `Int.toNat` conversions below are lossless. -/

/-- Context threaded through the refiner passes. -/
structure SplitCtx where
  text : List Char
  estimatedC : Nat
  minC : Nat
  maxC : Nat
  splitC : Nat

/-- Python truthiness of the `best_split` variable: `None` and `0` are
falsy (the source tests `if best_split:` on a position that can be 0). -/
def pyTruthyPos : Option Nat → Bool
  | none => false
  | some n => n ≠ 0

/-- Python `list.insert(i, x)` (for `i ≤ len`). -/
def pyInsertAt (l : List Nat) (i : Nat) (x : Nat) : List Nat :=
  l.take i ++ x :: l.drop i

/-- Merge pass (source lines 405–442): drop a candidate whose segment is
shorter than `min` when its speaker set meets the next segment's or the
combined length is still below `max`. -/
def mergePassGo (ctx : SplitCtx) (sp : List Nat) :
    Nat → List Nat → Nat → List Nat
  | 0, refined, _ => refined
  | fuel + 1, refined, i =>
    if i < sp.length then
      let prev_start := refined.getLastD 0
      let current_start := sp.getD i 0
      let segment_length := current_start - prev_start
      if segment_length < ctx.minC ∧ i + 1 < sp.length then
        let next_start := sp.getD (i + 1) 0
        let combined_length := next_start - prev_start
        let current_seg := pySlice ctx.text prev_start current_start
        let next_seg := pySlice ctx.text current_start next_start
        let current_speakers := extract_speaker_names current_seg
        let next_speakers := extract_speaker_names next_seg
        let speakers_overlap := current_speakers.any (fun n => n ∈ next_speakers)
        if speakers_overlap ∨ combined_length < ctx.maxC then
          mergePassGo ctx sp fuel refined (i + 1)
        else
          mergePassGo ctx sp fuel (refined ++ [current_start]) (i + 1)
      else
        mergePassGo ctx sp fuel (refined ++ [current_start]) (i + 1)
    else refined

/-- Merge pass entry point: `refined_splits = [split_points[0]]; i = 1`. -/
def mergePass (ctx : SplitCtx) (sp : List Nat) : List Nat :=
  mergePassGo ctx sp (sp.length + 1) [sp.headD 0] 1

/-- `len(set(a) & set(b)) == 0` for the two name sets around a candidate. -/
def speakerDiffAt (ctx : SplitCtx) (prev cand cend : Nat) : Bool :=
  let before_speakers := extract_speaker_names (pySlice ctx.text prev cand)
  let after_speakers := extract_speaker_names (pySlice ctx.text cand cend)
  before_speakers.all (fun n => n ∉ after_speakers)

/-- `min ≤ before_len ≤ max·mult and min ≤ after_len ≤ max·mult` with the
branch-specific multiplier given as the exact fraction
`multNum / multDen` (the source's float multipliers `1.2 … 1.5`); the
comparison `len ≤ max·(n/d)` is the integer comparison `d·len ≤ max·n`. -/
def lenOkAt (ctx : SplitCtx) (prev cand cend : Nat) (multNum multDen : Nat) :
    Bool :=
  let before_len := cand - prev
  let after_len := cend - cand
  decide (ctx.minC ≤ before_len ∧ multDen * before_len ≤ ctx.maxC * multNum ∧
    ctx.minC ≤ after_len ∧ multDen * after_len ≤ ctx.maxC * multNum)

/-- The closing+introduction score `5 + 2·diff + 2·len_ok`. -/
def closingIntroScore (ctx : SplitCtx) (prev cand cend : Nat)
    (multNum multDen : Nat) : Nat :=
  5 + (if speakerDiffAt ctx prev cand cend then 2 else 0) +
    (if lenOkAt ctx prev cand cend multNum multDen then 2 else 0)

/-- Best-candidate accumulator: `(best_split, best_score)`. -/
def Best : Type :=
  Option Nat × Nat

/-- Priority-1 inner loop over `intro_patterns` for one closing match
(source lines 481–504 resp. 585–609): the first score improvement wins and
breaks; otherwise a truthy `best_split` breaks. -/
def p1IntroLoop (ctx : SplitCtx) (prev cend closing_end : Nat)
    (next_text : List Char) (multNum multDen : Nat) :
    List (List Char) → Best → Best
  | [], best => best
  | p :: ps, best =>
    match reSearch (mLitCI p) next_text with
    | some pr =>
      let candidate := closing_end + pr.1
      let score := closingIntroScore ctx prev candidate cend multNum multDen
      if score > best.2 then (some candidate, score)
      else if pyTruthyPos best.1 then best
      else p1IntroLoop ctx prev cend closing_end next_text multNum multDen ps best
    | none =>
      if pyTruthyPos best.1 then best
      else p1IntroLoop ctx prev cend closing_end next_text multNum multDen ps best

/-- Priority-1 loop over the closing matches of one pattern.  `base` is the
offset of the searched slice inside the full text, `winEnd` the cap for the
500-character lookahead (`current_end` in the very-long branch, the window
end in the moderate branch). -/
def p1ClosingLoop (ctx : SplitCtx) (prev cend base winEnd : Nat)
    (multNum multDen : Nat) :
    List (Nat × Nat) → Best → Best
  | [], best => best
  | pr :: prs, best =>
    let closing_end := base + pr.1 + pr.2
    let next_text := pySlice ctx.text closing_end (min (closing_end + 500) winEnd)
    let best2 := p1IntroLoop ctx prev cend closing_end next_text multNum multDen
      intro_patterns best
    if pyTruthyPos best2.1 then best2
    else p1ClosingLoop ctx prev cend base winEnd multNum multDen prs best2

/-- Priority-1 loop over `closing_patterns`. -/
def p1PatternLoop (ctx : SplitCtx) (prev cend base winEnd : Nat)
    (multNum multDen : Nat) (hay : List Char) : List Matcher → Best → Best
  | [], best => best
  | m :: ms, best =>
    let best2 := p1ClosingLoop ctx prev cend base winEnd multNum multDen
      (finditer m hay) best
    if pyTruthyPos best2.1 then best2
    else p1PatternLoop ctx prev cend base winEnd multNum multDen hay ms best2

/-- Priority-2 (very long) match loop over one pattern's matches in the
window (source lines 522–545): an improving score sets and breaks. -/
def p2MatchLoop (ctx : SplitCtx) (prev cend ssl ideal : Nat) :
    List (Nat × Nat) → Best → Best
  | [], best => best
  | pr :: prs, best =>
    let candidate := ssl + pr.1
    let pos_bonus := if natDistLt candidate ideal 400 then 1 else 0
    let score := (if speakerDiffAt ctx prev candidate cend then 3 else 0) +
      (if lenOkAt ctx prev candidate cend 14 10 then 2 else 0) + pos_bonus
    if score > best.2 then (some candidate, score)
    else p2MatchLoop ctx prev cend ssl ideal prs best

/-- Priority-2 (very long) loop over `intro_patterns` for one ideal
position. -/
def p2PatternLoop (ctx : SplitCtx) (prev cend ssl sel ideal : Nat) :
    List (List Char) → Best → Best
  | [], best => best
  | p :: ps, best =>
    let best2 := p2MatchLoop ctx prev cend ssl ideal
      (finditer (mLitCI p) (pySlice ctx.text ssl sel)) best
    if pyTruthyPos best2.1 then best2
    else p2PatternLoop ctx prev cend ssl sel ideal ps best2

/-- Priority-2 (very long) loop over the ideal split positions
`split_idx = 1 … num_splits_needed` (source lines 511–547). -/
def p2IdealLoop (ctx : SplitCtx) (prev cend : Nat) :
    List Nat → Best → Best
  | [], best => best
  | split_idx :: idxs, best =>
    let ideal_split_pos := prev + split_idx * ctx.estimatedC
    if ideal_split_pos ≥ cend - ctx.minC then best
    else
      let search_start_local := max (prev + ctx.minC) (ideal_split_pos - 800)
      let search_end_local := min (cend - ctx.minC) (ideal_split_pos + 800)
      let best2 := p2PatternLoop ctx prev cend search_start_local
        search_end_local ideal_split_pos intro_patterns best
      if pyTruthyPos best2.1 then best2
      else p2IdealLoop ctx prev cend idxs best2

/-- Priority-3 (very long) loop over one closing pattern's matches
(source lines 551–573): a closing followed by at least `0.8·min` stripped
characters, with both spans in `[min, 1.5·max]`; no breaks at all. -/
def p3MatchLoop (ctx : SplitCtx) (prev cend : Nat) :
    List (Nat × Nat) → Best → Best
  | [], best => best
  | pr :: prs, best =>
    let candidate := prev + pr.1 + pr.2
    let after_text := pySlice ctx.text candidate cend
    let best2 :=
      -- `len(after.strip()) > min·0.8` as the exact `10·len > 8·min`
      if 10 * (pyStrip after_text).length > 8 * ctx.minC then
        if lenOkAt ctx prev candidate cend 15 10 then
          let speaker_diff := speakerDiffAt ctx prev candidate cend
          let len_ok_local := lenOkAt ctx prev candidate cend 15 10
          let score := 4 + (if speaker_diff then 2 else 0) +
            (if len_ok_local then 1 else 0)
          if score > best.2 then (some candidate, score) else best
        else best
      else best
    p3MatchLoop ctx prev cend prs best2

/-- Priority-3 (very long) loop over `closing_patterns`. -/
def p3PatternLoop (ctx : SplitCtx) (prev cend : Nat) (hay : List Char) :
    List Matcher → Best → Best
  | [], best => best
  | m :: ms, best =>
    p3PatternLoop ctx prev cend hay ms
      (p3MatchLoop ctx prev cend (finditer m hay) best)

/-- Moderate-length priority-2 loop (source lines 614–633): intro matches
in the midpoint window, score `3·diff + 1·len_ok` with the `1.2`
multiplier; improving scores set without breaking. -/
def modP2MatchLoop (ctx : SplitCtx) (prev cend ss : Nat) :
    List (Nat × Nat) → Best → Best
  | [], best => best
  | pr :: prs, best =>
    let candidate := ss + pr.1
    let score := (if speakerDiffAt ctx prev candidate cend then 3 else 0) +
      (if lenOkAt ctx prev candidate cend 12 10 then 1 else 0)
    if score > best.2 then modP2MatchLoop ctx prev cend ss prs (some candidate, score)
    else modP2MatchLoop ctx prev cend ss prs best

/-- Moderate-length priority-2 over `intro_patterns`. -/
def modP2PatternLoop (ctx : SplitCtx) (prev cend ss se : Nat) :
    List (List Char) → Best → Best
  | [], best => best
  | p :: ps, best =>
    modP2PatternLoop ctx prev cend ss se ps
      (modP2MatchLoop ctx prev cend ss
        (finditer (mLitCI p) (pySlice ctx.text ss se)) best)

/-- Moderate-length priority-3 loop (source lines 636–655): closing-match
ends in the window, score `2·diff + 1·len_ok`; no breaks. -/
def modP3MatchLoop (ctx : SplitCtx) (prev cend ss : Nat) :
    List (Nat × Nat) → Best → Best
  | [], best => best
  | pr :: prs, best =>
    let candidate := ss + pr.1 + pr.2
    let score := (if speakerDiffAt ctx prev candidate cend then 2 else 0) +
      (if lenOkAt ctx prev candidate cend 12 10 then 1 else 0)
    if score > best.2 then modP3MatchLoop ctx prev cend ss prs (some candidate, score)
    else modP3MatchLoop ctx prev cend ss prs best

/-- Moderate-length priority-3 over `closing_patterns`. -/
def modP3PatternLoop (ctx : SplitCtx) (prev cend ss se : Nat) :
    List Matcher → Best → Best
  | [], best => best
  | m :: ms, best =>
    modP3PatternLoop ctx prev cend ss se ms
      (modP3MatchLoop ctx prev cend ss
        (finditer m (pySlice ctx.text ss se)) best)

/-- `[.!?]+\s+` (the forced-split sentence-boundary search). -/
def mPunctWs : Matcher :=
  fun s =>
    let p := (s.takeWhile (fun c => c = '.' || c = '!' || c = '?')).length
    if p = 0 then none
    else
      let w := ((s.drop p).takeWhile isPySpace).length
      if w = 0 then none else some (p + w)

/-- `\s{2,}|\n` (the forced-split whitespace fallback). -/
def mWs2OrNl : Matcher :=
  fun s =>
    let w := (s.takeWhile isPySpace).length
    if 2 ≤ w then some w
    else
      match s with
      | '\n' :: _ => some 1
      | _ => none

/-- Forced-split intro search (source lines 667–681): any intro match in
the middle 40% of the span, accepted when both parts reach `0.8·min`. -/
def forcedIntroMatchLoop (prev cend ss min_required : Nat) :
    List (Nat × Nat) → Best → Best
  | [], best => best
  | pr :: prs, best =>
    let candidate := ss + pr.1
    let before_len := candidate - prev
    let after_len := cend - candidate
    if before_len ≥ min_required ∧ after_len ≥ min_required then
      (some candidate, 3)
    else forcedIntroMatchLoop prev cend ss min_required prs best

/-- Forced-split intro search over `intro_patterns`. -/
def forcedIntroPatternLoop (ctx : SplitCtx) (prev cend ss se mr : Nat) :
    List (List Char) → Best → Best
  | [], best => best
  | p :: ps, best =>
    let best2 := forcedIntroMatchLoop prev cend ss mr
      (finditer (mLitCI p) (pySlice ctx.text ss se)) best
    if pyTruthyPos best2.1 then best2
    else forcedIntroPatternLoop ctx prev cend ss se mr ps best2

/-- The offsets `range(-300, 301, 50)` of the forced midpoint scan. -/
def forcedOffsets : List ℤ :=
  [-300, -250, -200, -150, -100, -50, 0, 50, 100, 150, 200, 250, 300]

/-- Forced-split last resort (source lines 692–723): scan outward from the
midpoint in 50-character steps; at each admissible position take the next
sentence boundary, else a whitespace run, else the position itself, each
accepted only within the `min_required` margins. -/
def forcedMidpointLoop (ctx : SplitCtx) (prev cend mid mr : Nat) :
    List ℤ → Best → Best
  | [], best => best
  | off :: offs, best =>
    let check : ℤ := (mid : ℤ) + off
    let best2 :=
      if (prev + mr : ℤ) ≤ check ∧ check ≤ (cend : ℤ) - mr then
        let checkN := check.toNat
        let base := max (checkN - 150) prev
        let text_around := pySlice ctx.text base (min (checkN + 400) cend)
        match reSearch mPunctWs text_around with
        | some pr =>
          let candidate := base + pr.1 + pr.2
          if prev + mr ≤ candidate ∧ candidate ≤ cend - mr then
            (some candidate, 2)
          else best
        | none =>
          match reSearch mWs2OrNl text_around with
          | some pr =>
            let candidate := base + pr.1 + pr.2
            if prev + mr ≤ candidate ∧ candidate ≤ cend - mr then
              (some candidate, 1)
            else best
          | none =>
            if prev + mr ≤ checkN ∧ checkN ≤ cend - mr then
              (some checkN, 1)
            else best
      else best
    if pyTruthyPos best2.1 then best2
    else forcedMidpointLoop ctx prev cend mid mr offs best2

/-- The split pass body for one over-long segment: the tiered, scored
search of source lines 456–723, producing the final `(best_split,
best_score)`.  `prev` is the last accepted split, `cend` the segment end. -/
def findBestSplit (ctx : SplitCtx) (prev cend : Nat) : Except PyErr Best :=
  let segment_length := cend - prev
  let segment_text := pySlice ctx.text prev cend
  if ctx.maxC = 0 then .error .zeroDivision
  else
    let num_splits_needed := max 1 (segment_length / ctx.maxC)
    let best0 : Best := (none, 0)
    let best1 :=
      if segment_length > ctx.splitC then
        let best_a := p1PatternLoop ctx prev cend prev cend 15 10
          segment_text closingMatchers best0
        let best_b :=
          if pyTruthyPos best_a.1 then best_a
          else p2IdealLoop ctx prev cend (List.range' 1 num_splits_needed) best_a
        if pyTruthyPos best_b.1 then best_b
        else p3PatternLoop ctx prev cend segment_text closingMatchers best_b
      else
        let mid_point := prev + segment_length / 2
        let search_start := max (prev + ctx.minC) (mid_point - 1000)
        let search_end := min (cend - ctx.minC) (mid_point + 1000)
        let window := pySlice ctx.text search_start search_end
        let best_a := p1PatternLoop ctx prev cend search_start search_end
          13 10 window closingMatchers best0
        let best_b :=
          if pyTruthyPos best_a.1 then best_a
          else modP2PatternLoop ctx prev cend search_start search_end
            intro_patterns best_a
        if pyTruthyPos best_b.1 then best_b
        else modP3PatternLoop ctx prev cend search_start search_end
          closingMatchers best_b
    let best2 :=
      -- `segment_length > split·1.25` as the exact `100·len > 125·split`
      if ¬ pyTruthyPos best1.1 ∧
          100 * segment_length > 125 * ctx.splitC then
        let mid_point := prev + segment_length / 2
        let fs_start := max (prev + ctx.minC) (mid_point - segment_length / 5)
        let fs_end := min (cend - ctx.minC) (mid_point + segment_length / 5)
        let mr8 := (4 * ctx.minC) / 5
        let best_f := forcedIntroPatternLoop ctx prev cend fs_start fs_end mr8
          intro_patterns best1
        if pyTruthyPos best_f.1 then best_f
        else
          let mr75 := (3 * ctx.minC) / 4
          let before_len := mid_point - prev
          let after_len := cend - mid_point
          if before_len ≥ mr75 ∧ after_len ≥ mr75 then
            forcedMidpointLoop ctx prev cend mid_point mr75 forcedOffsets best_f
          else best_f
      else best1
    .ok best2

/-- The split pass driver (source lines 444–736): a `while` loop over the
merged candidates, restarting from the top after every inserted split. -/
def splitPassGo (ctx : SplitCtx) :
    Nat → List Nat → List Nat → Nat → Except PyErr (List Nat)
  | 0, _, _, _ => .error .outOfFuel
  | fuel + 1, refined, finalS, i =>
    if i < refined.length then
      let prev_start := finalS.getLastD 0
      let current_start := refined.getD i 0
      let current_end :=
        if i + 1 < refined.length then refined.getD (i + 1) 0
        else ctx.text.length
      let segment_length := current_end - prev_start
      if segment_length > ctx.maxC then
        match findBestSplit ctx prev_start current_end with
        | .error e => .error e
        | .ok best =>
          if pyTruthyPos best.1 then
            match best.1 with
            | some b =>
              let refined2 := pyInsertAt refined i b
              splitPassGo ctx fuel refined2 [refined2.headD 0] 1
            | none => .error .outOfFuel
          else
            splitPassGo ctx fuel refined (finalS ++ [current_start]) (i + 1)
      else
        splitPassGo ctx fuel refined (finalS ++ [current_start]) (i + 1)
    else .ok finalS

/-- Append the text-end sentinel when missing (source lines 739–740 and
757–758). -/
def ensureEndsAt (L : Nat) (l : List Nat) : List Nat :=
  if l.getLastD 0 ≠ L then l ++ [L] else l

/-- Proximity filter (source lines 743–754): drop splits closer than
`0.4·min` to the previous accepted one — in favour of the later one —
except the final text-end split, which is always kept. -/
def proximityFilter (minC : Nat) (L : Nat) (fs : List Nat) : List Nat :=
  -- `split - filtered[-1] >= min·0.4` as the exact `5·split ≥ 5·last + 2·min`
  -- (the Python left side can be negative; without subtraction both sides
  -- of the natural-number comparison agree with the rational one)
  fs.tail.foldl
    (fun (filtered : List Nat) (split : Nat) =>
      if 5 * split ≥ 5 * filtered.getLastD 0 + 2 * minC then
        filtered ++ [split]
      else if split = L then
        if filtered.getLastD 0 ≠ L then filtered ++ [L] else filtered
      else filtered.dropLast ++ [split])
    [fs.headD 0]

/-- Episode creation (source lines 761–767): strip each span, keep spans
longer than 100 characters. -/
def episodesFromSplits (text : List Char) (ss : List Nat) : List String :=
  (ss.zip ss.tail).filterMap
    (fun pr =>
      let episode := pyStrip (pySlice text pr.1 pr.2)
      if episode.length > 100 then some (String.mk episode) else none)

/-- The final split list (everything of `split_by_episode_patterns` up to
episode creation): scanner, merge pass, split pass, sentinel, proximity
filter, sentinel. -/
def ctxOf (text : List Char) (audioDuration : Option ℚ) : SplitCtx :=
  let T := computeThresholds text.length audioDuration
  ⟨text, T.estimated_chars_per_episode.toNat, T.min_chars_per_episode.toNat,
    T.max_chars_per_episode.toNat, T.split_chars_per_episode.toNat⟩

/-- See `filteredSplits`. -/
def filteredSplits (text : List Char) (audioDuration : Option ℚ) :
    Except PyErr (List Nat) :=
  let ctx := ctxOf text audioDuration
  let sp := scannerCandidates text
  let refined := mergePass ctx sp
  let fuel := (text.length + 4) * (text.length + 4) + 100
  match splitPassGo ctx fuel refined [refined.headD 0] 1 with
  | .error e => .error e
  | .ok finalS =>
    let finalS2 := ensureEndsAt text.length finalS
    let filtered := proximityFilter ctx.minC text.length finalS2
    .ok (ensureEndsAt text.length filtered)

/-- `split_by_episode_patterns(text, audio_path=None, speaker_segments=None,
audio_duration)` (source lines 243–773).  The `audio_path` argument (an
`ffprobe` call) and `speaker_segments` (only read by the dead
`episode_speaker_sets` computation of lines 379–401, whose results nothing
consumes) are not modelled; the duration is passed directly.  Returns the
episode texts, or the whole text as a single episode when no span
survives. -/
def split_by_episode_patterns (text : List Char) (audioDuration : Option ℚ) :
    Except PyErr (List String) :=
  match filteredSplits text audioDuration with
  | .error e => .error e
  | .ok ss =>
    let episodes := episodesFromSplits text ss
    .ok (if episodes.isEmpty then [String.mk text] else episodes)

/-- `split_by_episode_patterns` on a `String`. -/
def splitByEpisodePatternsS (text : String) (audioDuration : Option ℚ) :
    Except PyErr (List String) :=
  split_by_episode_patterns text.data audioDuration

/-! ## Sentence splitting and the attribution engine's sub-patterns -/

/-- `re.split`: the pieces of `l` between the non-overlapping matches of
`m` (used with `[.!?]+\s+`, source line 1266 / 1271). -/
def reSplit (m : Matcher) (l : List Char) : List (List Char) :=
  go 0 (finditer m l)
where
  go : Nat → List (Nat × Nat) → List (List Char)
    | start, [] => [pySliceFrom l start]
    | start, pr :: rest => pySlice l start pr.1 :: go (pr.1 + pr.2) rest

/-- The sentence list of a text, as produced by
`re.split(r'[.!?]+\s+', text)` (raw pieces, possibly empty). -/
def splitSentences (l : List Char) : List String :=
  (reSplit mPunctWs l).map String.mk

/-- The word-review marker test
`Pero primero.*palabras|estas son algunas palabras` (`re.search`,
IGNORECASE; `.` does not cross newlines). -/
def markerCheck (s : List Char) : Bool :=
  reTest
    (mAlt (mSeq (mLitCI ("Pero primero").data) (mSameLineUpto ("palabras").data))
      (mLitCI ("estas son algunas palabras").data)) s

/-- Index of the first sentence matching the word-review marker. -/
def findMarker (sents : List String) : Option Nat :=
  sents.findIdx? (fun s => markerCheck s.data)

/-- The self-introduction opening
`(?:Soy|soy|Me llamo|me llamo|Mi nombre es|mi nombre es)` under
IGNORECASE (the case variants of the source collapse). -/
def mSelfIntroPre : Matcher :=
  mAlt (mLitCI ("Soy").data)
    (mAlt (mLitCI ("Me llamo").data) (mLitCI ("Mi nombre es").data))

/-- Zero-width word boundary `\b` after a word: no word character ahead. -/
def mWordBoundary : Matcher :=
  fun s => if notWordAhead s then some 0 else none

/-- `(?:Soy|...)\s+{name}\b` (IGNORECASE), the per-name self-introduction
test (source lines 1289 and 1428). -/
def mSelfIntroName (name : String) : Matcher :=
  mSeq mSelfIntroPre
    (mSeq (mPlus isPySpace) (mSeq (mLitCI name.data) mWordBoundary))

/-- `(?:Soy|...)\s+(\w+)\b` (IGNORECASE), capturing the introduced word
(source lines 1365–1366). -/
def cSelfIntroAny : CMatcher :=
  fun s =>
    match mSelfIntroPre s with
    | none => none
    | some n =>
      let rest := s.drop n
      let ws := (rest.takeWhile isPySpace).length
      if ws = 0 then none
      else
        let w := (rest.drop ws).takeWhile isPyWordChar
        if w.length = 0 then none else some (n + ws + w.length, w)

/-- Group 1 of the first match of `cm` in `l` (`re.search(...).group(1)`). -/
def searchCapture (cm : CMatcher) (l : List Char) : Option String :=
  ((findCaptures cm l).head?).map String.mk

/-- `(?:^|\s)` then `m`: does `m` match at the start of the text or right
after a whitespace character?  (For a boolean test, consuming the
whitespace is irrelevant.) -/
def searchAfterBoundary (m : Matcher) : List Char → Bool :=
  go true
where
  go : Bool → List Char → Bool
    | _, [] => false
    | atOk, c :: rest =>
      if atOk ∧ (m (c :: rest)).isSome then true
      else go (isPySpace c) rest

/-- `,?\s*` then `inner`. -/
def mCommaWs0 (inner : Matcher) : Matcher :=
  fun s =>
    let comma := match s with
      | ',' :: _ => 1
      | _ => 0
    let rest := s.drop comma
    let ws := (rest.takeWhile isPySpace).length
    match inner (rest.drop ws) with
    | some n => some (comma + ws + n)
    | none => none

/-- `,?\s+` then `inner` (at least one whitespace character). -/
def mCommaWs1 (inner : Matcher) : Matcher :=
  fun s =>
    let comma := match s with
      | ',' :: _ => 1
      | _ => 0
    let rest := s.drop comma
    let ws := (rest.takeWhile isPySpace).length
    if ws = 0 then none
    else
      match inner (rest.drop ws) with
      | some n => some (comma + ws + n)
      | none => none

/-- The question-word alternation `(?:por qué|qué|cómo|cuándo|dónde|cuál|quién)`. -/
def mQuestionWords : Matcher :=
  mAlt (mLitCI ("por qué").data)
    (mAlt (mLitCI ("qué").data)
      (mAlt (mLitCI ("cómo").data)
        (mAlt (mLitCI ("cuándo").data)
          (mAlt (mLitCI ("dónde").data)
            (mAlt (mLitCI ("cuál").data) (mLitCI ("quién").data))))))

/-- The four directed-question tests of source lines 1376–1387 for one
name, or-ed exactly as in the source's `any(...)` generator. -/
def questionedCheck (name : String) (s : List Char) : Bool :=
  searchAfterBoundary
    (mSeq (mLitCI name.data) (mCommaWs0 (mSeq (mLitCI ("¿").data) mQuestionWords))) s ||
  searchAfterBoundary
    (mSeq (mLitCI name.data) (mCommaWs0 (mLitCI ("¿").data))) s ||
  searchAfterBoundary
    (mSeq (mLitCI name.data) (mCommaWs0 (mLitCI ("?").data))) s ||
  searchAfterBoundary
    (mSeq (mLitCI name.data) (mCommaWs1 (mLitCI ("por qué").data))) s

/-- `(\w+),?\s+(?:cuéntanos|cuéntame|gracias|por qué|porque)` (IGNORECASE),
capturing the addressed word (source lines 1396–1398). -/
def cAddressed : CMatcher :=
  fun s =>
    let w := s.takeWhile isPyWordChar
    if w.length = 0 then none
    else
      let rest := s.drop w.length
      let comma := match rest with
        | ',' :: _ => 1
        | _ => 0
      let rest2 := rest.drop comma
      let ws := (rest2.takeWhile isPySpace).length
      if ws = 0 then none
      else
        match mAlt (mLitCI ("cuéntanos").data)
            (mAlt (mLitCI ("cuéntame").data)
              (mAlt (mLitCI ("gracias").data)
                (mAlt (mLitCI ("por qué").data) (mLitCI ("porque").data))))
            (rest2.drop ws) with
        | some n => some (w.length + comma + ws + n, w)
        | none => none

/-- The closing-sentence test of source line 1362 (`re.search` with the
five-way alternation, IGNORECASE). -/
def closingSentenceCheck (s : List Char) : Bool :=
  reTest (mLitCI ("Gracias por escuchar").data) s ||
  reTest (mLitCI ("Gracias por acompañarme").data) s ||
  reTest (mLitCI ("Y así termina").data) s ||
  reTest (mLitCI ("Hasta pronto").data) s ||
  reTest (mLitCI ("Hasta la próxima").data) s

/-! ## Gender heuristic (`detect_gender`, source lines 1208–1240) -/

/-- The known female first names of the source. -/
def known_female : List String :=
  ["maria", "mariana", "ana", "carla", "laura", "sofia", "elena",
   "fernanda", "vea", "sari", "claudia"]

/-- The known male first names of the source. -/
def known_male : List String :=
  ["carlos", "juan", "pedro", "miguel", "mateo", "felipe", "antonio",
   "daniel", "jose", "luis", "junior", "ector", "vicram"]

/-- `detect_gender`: suffix tables first (the source's duplicated `'ela'`
entries are kept), then the known-name lookups. -/
def detect_gender (name : String) : Option Char :=
  let name_lower := String.mk (name.data.map pyLower)
  let female_endings : List String := ["a", "ia", "ina", "ela", "ela", "ela"]
  let male_endings : List String := ["o", "io", "in", "el", "er", "an", "en"]
  if female_endings.any
      (fun e => name_lower.endsWith e ∧ name_lower.length > e.length) then
    some 'F'
  else if male_endings.any
      (fun e => name_lower.endsWith e ∧ name_lower.length > e.length) then
    some 'M'
  else if name_lower ∈ known_female then some 'F'
  else if name_lower ∈ known_male then some 'M'
  else none

/-! ## Speaker attribution engine (`identify_speakers`, source 1242–1444)

Labels are `Option String`: `some s` is a Python string label; `none`
stands for either Python falsy placeholder the source can emit as a label —
`None` (never reassigned) or the empty list `[]` (the guest of a
one-name episode after a self-introduction).  The two placeholders are
behaviourally identical in the source: both are falsy, neither compares
equal to any speaker string, and the label is emitted as-is. -/

/-- First self-introducing name: the source's double loop over the
introduction section and the name list (lines 1287–1297). -/
def findFirstIntro : List String → List String → Option String
  | [], _ => none
  | s :: ss, names =>
    match names.find? (fun n => reTest (mSelfIntroName n) s.data) with
    | some n => some n
    | none => findFirstIntro ss names

/-- Truthiness of `word_review_marker` (a marker at index 0 is falsy —
`sentences[:word_review_marker] if word_review_marker else ...`). -/
def markerTruthy : Option Nat → Bool
  | none => false
  | some m => m ≠ 0

/-- Main/guest determination (source lines 1281–1303): a self-introduction
in the introduction section wins, otherwise the first detected name; the
guest is the other name when one exists.  The guest `none` collapses the
source's `None` (never set) and `[]` (empty comprehension) placeholders. -/
def mainGuestOf (sents : List String) (names : List String) (marker : Option Nat) :
    String × Option String :=
  let intro_section := if markerTruthy marker
    then sents.take (marker.getD 0) else sents.take 5
  match findFirstIntro intro_section names with
  | some n => (n, (names.filter (fun x => x ≠ n)).head?)
  | none => (names.headD "", names.get? 1)

/-- Context for the per-sentence attribution walk. -/
structure AttrCtx where
  speaker_names : List String
  main_speaker : String
  guest_speaker : Option String
  word_review_marker : Option Nat
  has_gender_info : Bool
  is_episode_start : Bool

/-- State of the attribution walk (the source's mutable
`word_count`, `narrator_words_complete`, `last_speaker`). -/
structure AttrState where
  word_count : Nat
  narrator_words_complete : Bool
  last_speaker : Option String

/-- Bare alternation `guest_speaker if last_speaker == main_speaker else
main_speaker` (source lines 1372, 1394, 1405): the guest placeholder is
emitted as-is. -/
def altBare (ctx : AttrCtx) (last : Option String) : Option String :=
  if last = some ctx.main_speaker then ctx.guest_speaker
  else some ctx.main_speaker

/-- Guarded alternation `guest_speaker if guest_speaker else main_speaker`
(source lines 1413–1422, both the gender-aware and the plain branch). -/
def altGuarded (ctx : AttrCtx) (last : Option String) : Option String :=
  if last = some ctx.main_speaker then
    match ctx.guest_speaker with
    | some g => some g
    | none => some ctx.main_speaker
  else some ctx.main_speaker

/-- The dialog-phase cascade for a sentence strictly after a truthy marker
(source lines 1360–1422). -/
def dialogPhase (ctx : AttrCtx) (st : AttrState) (sentence : List Char) :
    Option String :=
  if closingSentenceCheck sentence then some ctx.main_speaker
  else
    match searchCapture cSelfIntroAny sentence with
    | some intro_name =>
      if intro_name ∈ ctx.speaker_names then some intro_name
      else altBare ctx st.last_speaker
    | none =>
      if ctx.speaker_names.any (fun n => questionedCheck n sentence) then
        match ctx.speaker_names.find? (fun n => questionedCheck n sentence) with
        | some questioned_name =>
          if questioned_name = ctx.main_speaker then ctx.guest_speaker
          else some ctx.main_speaker
        | none => altBare ctx st.last_speaker
      else
        match searchCapture cAddressed sentence with
        | some addressed_name =>
          if addressed_name ∈ ctx.speaker_names then
            if addressed_name = ctx.main_speaker then ctx.guest_speaker
            else some ctx.main_speaker
          else altBare ctx st.last_speaker
        | none =>
          -- The gender-aware branch (`if has_gender_info and last_speaker:`)
          -- computes an unused `current_gender` and then performs exactly
          -- the same guarded alternation as the plain branch.
          if ctx.has_gender_info ∧ st.last_speaker.isSome then
            altGuarded ctx st.last_speaker
          else altGuarded ctx st.last_speaker

/-- The phase chain entered when the narrator block set no label
(source lines 1350–1422); when the marker is falsy none of the three
phase guards fire and `speaker_found` stays `None`. -/
def phaseChain (ctx : AttrCtx) (st : AttrState) (i : Nat)
    (sentence : List Char) : Option String :=
  match ctx.word_review_marker with
  | some m =>
    if m ≠ 0 then
      if i < m then some ctx.main_speaker
      else if i = m then some ctx.main_speaker
      else dialogPhase ctx st sentence
    else none
  | none => none

/-- One step of the attribution walk for a (raw) sentence at raw index
`i`: the optional emitted pair plus the new state.  Mirrors the body of
the `for i, sentence in enumerate(sentences)` loop (source 1317–1442). -/
def attrStep (ctx : AttrCtx) (st : AttrState) (i : Nat) (raw : String) :
    Option (String × Option String) × AttrState :=
  let sentence := pyStrip raw.data
  if sentence.isEmpty then (none, st)
  else
    let narr : Option String × Nat × Bool :=
      if ctx.is_episode_start ∧ ¬ st.narrator_words_complete then
        let words_in_sentence := countWords sentence
        if st.word_count + words_in_sentence ≤ 4 then
          (some "Narrator", st.word_count + words_in_sentence,
            decide (4 ≤ st.word_count + words_in_sentence))
        else if st.word_count < 4 then
          -- Crossing sentence: both halves of the `words_needed ≥ w·0.5`
          -- test of the source assign "Narrator" and complete the phase.
          (some "Narrator", st.word_count + words_in_sentence, true)
        else (none, st.word_count, st.narrator_words_complete)
      else (none, st.word_count, st.narrator_words_complete)
    let speaker_found : Option String :=
      match narr.1 with
      | none => phaseChain ctx ⟨narr.2.1, narr.2.2, st.last_speaker⟩ i sentence
      | some nar =>
        -- The source's `else:` block at line 1425 pairs with
        -- `if not speaker_found:`, so it runs exactly for narrator-labelled
        -- sentences: a self-introduction of a detected name overrides the
        -- narrator label; the alternation sub-block underneath is dead
        -- because `speaker_found` is truthy there.
        match ctx.speaker_names.find?
            (fun n => reTest (mSelfIntroName n) sentence) with
        | some n => some n
        | none => some nar
    (some (String.mk sentence, speaker_found),
      ⟨narr.2.1, narr.2.2, speaker_found⟩)

/-- The attribution walk over the enumerated raw sentences. -/
def attrWalk (ctx : AttrCtx) : AttrState → Nat → List String →
    List (String × Option String)
  | _, _, [] => []
  | st, i, s :: rest =>
    let step := attrStep ctx st i s
    match step.1 with
    | some pr => pr :: attrWalk ctx step.2 (i + 1) rest
    | none => attrWalk ctx step.2 (i + 1) rest

/-- Build the attribution context for a text, with the `has_gender_info`
flag supplied (the override used to state that the flag is immaterial). -/
def attrCtxOf (sents : List String) (speaker_names : List String)
    (is_episode_start : Bool) (hgi : Bool) : AttrCtx :=
  let marker := findMarker sents
  let mg := mainGuestOf sents speaker_names marker
  ⟨speaker_names, mg.1, mg.2, marker, hgi, is_episode_start⟩

/-- The source's `has_gender_info` (line 1306–1308): both genders known
and different. -/
def computeHGI (main_speaker : String) (guest_speaker : Option String) : Bool :=
  let main_gender := detect_gender main_speaker
  let guest_gender := match guest_speaker with
    | some g => detect_gender g
    | none => none
  main_gender.isSome ∧ guest_gender.isSome ∧ main_gender ≠ guest_gender

/-- `identify_speakers` with the `has_gender_info` flag overridden by `hgi`
(everything else exactly as in the source). -/
def identifySpeakersHGI (text : List Char) (speaker_names : List String)
    (is_episode_start : Bool) (hgi : Bool) : List (String × Option String) :=
  if speaker_names.isEmpty then
    (reSplit mPunctWs text).enum.filterMap
      (fun pr =>
        let t := pyStrip pr.2
        if t.isEmpty then none
        else some (String.mk t,
          some (if pr.1 % 2 = 0 then "Speaker 1" else "Speaker 2")))
  else
    let sents := splitSentences text
    let ctx := attrCtxOf sents speaker_names is_episode_start hgi
    attrWalk ctx ⟨0, false, none⟩ 0 sents

/-- `identify_speakers(text, speaker_names, is_episode_start)`
(source lines 1242–1444). -/
def identify_speakers (text : List Char) (speaker_names : List String)
    (is_episode_start : Bool) : List (String × Option String) :=
  if speaker_names.isEmpty then
    identifySpeakersHGI text speaker_names is_episode_start false
  else
    let sents := splitSentences text
    let marker := findMarker sents
    let mg := mainGuestOf sents speaker_names marker
    identifySpeakersHGI text speaker_names is_episode_start
      (computeHGI mg.1 mg.2)

/-- `identify_speakers` on a `String`. -/
def identifySpeakersS (text : String) (speaker_names : List String)
    (is_episode_start : Bool) : List (String × Option String) :=
  identify_speakers text.data speaker_names is_episode_start

/-! ## Theorems -/

/-- `pyInt` is the floor on nonnegative rationals. -/
theorem pyInt_eq_floor {q : ℚ} (h : 0 ≤ q) : pyInt q = ⌊q⌋ := by
  have hnum : 0 ≤ q.num := Rat.num_nonneg.mpr h
  rw [pyInt, Int.tdiv_eq_ediv hnum (by positivity), Rat.floor_def]

/-- Monotonicity of `pyInt` on nonnegative multiples of a nonnegative rate. -/
theorem pyInt_mul_le_mul {a b r : ℚ} (hab : a ≤ b) (ha : 0 ≤ a) (hr : 0 ≤ r) :
    pyInt (a * r) ≤ pyInt (b * r) := by
  rw [pyInt_eq_floor (mul_nonneg ha hr),
    pyInt_eq_floor (mul_nonneg (ha.trans hab) hr)]
  exact Int.floor_le_floor (mul_le_mul_of_nonneg_right hab hr)

/-- C4: for every positive audio duration and non-empty text the Duration
Model yields the integer truncations of `{120, 165, 210, 240} ×
len(text)/duration`, ordered `min ≤ target ≤ max ≤ split`; with no
duration it yields the fixed ordered quadruple `{1500, 2000, 3000, 3500}`.
(The source's `int()` truncates; on the positive rates concerned this is
the floor.) -/
theorem c4_duration_model (L : Nat) (d : ℚ) (hd : 0 < d) (hL : 0 < L) :
    (computeThresholds L (some d)).min_chars_per_episode =
      pyInt (120 * ((L : ℚ) / d)) ∧
    (computeThresholds L (some d)).estimated_chars_per_episode =
      pyInt (165 * ((L : ℚ) / d)) ∧
    (computeThresholds L (some d)).max_chars_per_episode =
      pyInt (210 * ((L : ℚ) / d)) ∧
    (computeThresholds L (some d)).split_chars_per_episode =
      pyInt (240 * ((L : ℚ) / d)) ∧
    (computeThresholds L (some d)).min_chars_per_episode ≤
      (computeThresholds L (some d)).estimated_chars_per_episode ∧
    (computeThresholds L (some d)).estimated_chars_per_episode ≤
      (computeThresholds L (some d)).max_chars_per_episode ∧
    (computeThresholds L (some d)).max_chars_per_episode ≤
      (computeThresholds L (some d)).split_chars_per_episode ∧
    computeThresholds L none = ⟨2000, 1500, 3000, 3500⟩ ∧
    (1500 : ℤ) ≤ 2000 ∧ (2000 : ℤ) ≤ 3000 ∧ (3000 : ℤ) ≤ 3500 := by
  have hne : d ≠ 0 := ne_of_gt hd
  have hr : (0 : ℚ) ≤ (L : ℚ) / d := by positivity
  have hT : computeThresholds L (some d) =
      ⟨pyInt (165 * ((L : ℚ) / d)), pyInt (120 * ((L : ℚ) / d)),
        pyInt (210 * ((L : ℚ) / d)), pyInt (240 * ((L : ℚ) / d))⟩ := by
    simp [computeThresholds, if_pos (And.intro hne hL)]
  rw [hT]
  refine ⟨rfl, rfl, rfl, rfl, ?_, ?_, ?_, rfl, by norm_num, by norm_num, by norm_num⟩
  · exact pyInt_mul_le_mul (by norm_num) (by norm_num) hr
  · exact pyInt_mul_le_mul (by norm_num) (by norm_num) hr
  · exact pyInt_mul_le_mul (by norm_num) (by norm_num) hr

/-- Witness for C4 at `len(text) = 100`, `duration = 3`. -/
theorem c4_duration_model_witness :
    (computeThresholds 100 (some 3)).min_chars_per_episode =
      pyInt (120 * ((100 : ℚ) / 3)) ∧
    (computeThresholds 100 (some 3)).estimated_chars_per_episode =
      pyInt (165 * ((100 : ℚ) / 3)) ∧
    (computeThresholds 100 (some 3)).max_chars_per_episode =
      pyInt (210 * ((100 : ℚ) / 3)) ∧
    (computeThresholds 100 (some 3)).split_chars_per_episode =
      pyInt (240 * ((100 : ℚ) / 3)) ∧
    (computeThresholds 100 (some 3)).min_chars_per_episode ≤
      (computeThresholds 100 (some 3)).estimated_chars_per_episode ∧
    (computeThresholds 100 (some 3)).estimated_chars_per_episode ≤
      (computeThresholds 100 (some 3)).max_chars_per_episode ∧
    (computeThresholds 100 (some 3)).max_chars_per_episode ≤
      (computeThresholds 100 (some 3)).split_chars_per_episode ∧
    computeThresholds 100 none = ⟨2000, 1500, 3000, 3500⟩ ∧
    (1500 : ℤ) ≤ 2000 ∧ (2000 : ℤ) ≤ 3000 ∧ (3000 : ℤ) ≤ 3500 :=
  c4_duration_model 100 3 (by norm_num) (by norm_num)

/-- The dialog-phase cascade does not read `has_gender_info`: the
gender-aware alternation branch and the plain branch are the same guarded
alternation. -/
theorem dialogPhase_hgi (names : List String) (main : String)
    (guest : Option String) (marker : Option Nat) (es : Bool)
    (b1 b2 : Bool) (st : AttrState) (s : List Char) :
    dialogPhase ⟨names, main, guest, marker, b1, es⟩ st s =
      dialogPhase ⟨names, main, guest, marker, b2, es⟩ st s := by
  unfold dialogPhase altBare altGuarded
  simp only [ite_self]

/-- `phaseChain` does not read `has_gender_info`. -/
theorem phaseChain_hgi (names : List String) (main : String)
    (guest : Option String) (marker : Option Nat) (es : Bool)
    (b1 b2 : Bool) (st : AttrState) (i : Nat) (s : List Char) :
    phaseChain ⟨names, main, guest, marker, b1, es⟩ st i s =
      phaseChain ⟨names, main, guest, marker, b2, es⟩ st i s := by
  unfold phaseChain
  cases marker with
  | none => rfl
  | some m =>
    by_cases hm : m ≠ 0
    · simp only [hm, if_true]
      by_cases h1 : i < m
      · simp [h1]
      · by_cases h2 : i = m
        · simp [h1, h2]
        · simp [h1, h2, dialogPhase_hgi names main guest (some m) es b1 b2 st s]
    · simp [hm]

/-- One attribution step does not read `has_gender_info`. -/
theorem attrStep_hgi (names : List String) (main : String)
    (guest : Option String) (marker : Option Nat) (es : Bool)
    (b1 b2 : Bool) (st : AttrState) (i : Nat) (raw : String) :
    attrStep ⟨names, main, guest, marker, b1, es⟩ st i raw =
      attrStep ⟨names, main, guest, marker, b2, es⟩ st i raw := by
  unfold attrStep
  simp only [phaseChain_hgi names main guest marker es b1 b2]

/-- The attribution walk does not read `has_gender_info`. -/
theorem attrWalk_hgi (names : List String) (main : String)
    (guest : Option String) (marker : Option Nat) (es : Bool)
    (b1 b2 : Bool) :
    ∀ (sents : List String) (st : AttrState) (i : Nat),
    attrWalk ⟨names, main, guest, marker, b1, es⟩ st i sents =
      attrWalk ⟨names, main, guest, marker, b2, es⟩ st i sents
  | [], _, _ => rfl
  | s :: rest, st, i => by
    unfold attrWalk
    rw [attrStep_hgi names main guest marker es b1 b2 st i s]
    exact
      match h :
        (attrStep ⟨names, main, guest, marker, b2, es⟩ st i s).1 with
      | some pr => by
        simp only [attrWalk_hgi names main guest marker es b1 b2 rest _ (i + 1)]
      | none => by
        simp only [attrWalk_hgi names main guest marker es b1 b2 rest _ (i + 1)]

/-- C8: the `has_gender_info` flag has no effect on attribution — for
every text, name list and episode-start flag, `identify_speakers` returns
the same labels as the variant with the flag forced to any boolean
(the gender-aware alternation branch computes the same speaker as the
plain alternation branch). -/
theorem c8_gender_flag_immaterial (text : List Char)
    (speaker_names : List String) (is_episode_start : Bool) (b : Bool) :
    identifySpeakersHGI text speaker_names is_episode_start b =
      identify_speakers text speaker_names is_episode_start := by
  unfold identify_speakers
  by_cases hE : speaker_names.isEmpty
  · simp only [hE, if_true, identifySpeakersHGI]
  · simp only [hE, if_false, Bool.false_eq_true, identifySpeakersHGI, attrCtxOf]
    exact attrWalk_hgi speaker_names _ _ _ is_episode_start b _ _ _ 0

/-- C6 counterexample: on `"Hola. Adiós."` with no names the engine keeps
the trailing period of the final sentence — the split regex `[.!?]+\s+`
consumes punctuation only when whitespace follows — so the second pair is
`("Adiós.", "Speaker 2")`, not the claimed `("Adiós", "Speaker 2")`; and
on `"a. . b"` the parity of the *raw* split index (the empty middle
fragment still counts) gives two consecutive non-empty sentences the same
label `"Speaker 1"`, refuting strict alternation of consecutive non-empty
sentences. -/
theorem c6_counterexample :
    identifySpeakersS "Hola. Adiós." [] false =
      [("Hola", some "Speaker 1"), ("Adiós.", some "Speaker 2")] ∧
    identifySpeakersS "Hola. Adiós." [] false ≠
      [("Hola", some "Speaker 1"), ("Adiós", some "Speaker 2")] ∧
    identifySpeakersS "a. . b" [] false =
      [("a", some "Speaker 1"), ("b", some "Speaker 1")] := by
  refine ⟨by decide, by decide, by decide⟩

/-- Membership in `enumFrom` from an index lookup. -/
theorem mem_enumFrom_of_getQ {α : Type} :
    ∀ (l : List α) (k i : Nat) (s : α),
      l.get? i = some s → (k + i, s) ∈ l.enumFrom k
  | [], _, i, _, h => by simp at h
  | x :: rest, k, 0, s, h => by
    simp only [List.get?] at h
    cases h
    simp [List.enumFrom]
  | x :: rest, k, i + 1, s, h => by
    simp only [List.get?] at h
    have ih := mem_enumFrom_of_getQ rest (k + 1) i s h
    simp only [List.enumFrom, List.mem_cons]
    right
    have : k + 1 + i = k + (i + 1) := by omega
    rwa [this] at ih

/-- C6 (amended): `"Hola. Adiós."` with no detected names yields exactly
`[("Hola", "Speaker 1"), ("Adiós.", "Speaker 2")]` (trailing period kept);
in general, with zero names, the non-empty sentence at *raw* split index
`i` receives `"Speaker 1"` when `i` is even and `"Speaker 2"` when odd —
so consecutive non-empty sentences alternate only when no empty split
fragment lies between them. -/
theorem c6_zero_names_parity :
    (identifySpeakersS "Hola. Adiós." [] false =
      [("Hola", some "Speaker 1"), ("Adiós.", some "Speaker 2")]) ∧
    ∀ (text : String) (i : Nat) (s : List Char),
      (reSplit mPunctWs text.data).get? i = some s → pyStrip s ≠ [] →
      (String.mk (pyStrip s),
        some (if i % 2 = 0 then "Speaker 1" else "Speaker 2")) ∈
        identifySpeakersS text [] false := by
  constructor
  · decide
  · intro text i s hget hne
    unfold identifySpeakersS identify_speakers identifySpeakersHGI
    simp only [List.isEmpty_nil, if_true]
    apply List.mem_filterMap.mpr
    refine ⟨(i, s), ?_, ?_⟩
    · have := mem_enumFrom_of_getQ (reSplit mPunctWs text.data) 0 i s hget
      simpa [List.enum] using this
    · simp only [List.isEmpty_iff, hne, if_neg]
      simp [List.isEmpty_iff, hne]

/-- Witness for C6's general parity statement at index 1 of
`"Hola. Adiós."`. -/
theorem c6_zero_names_parity_witness :
    (String.mk (pyStrip ("Adiós.").data),
      some (if 1 % 2 = 0 then "Speaker 1" else "Speaker 2")) ∈
      identifySpeakersS "Hola. Adiós." [] false :=
  c6_zero_names_parity.2 "Hola. Adiós." 1 ("Adiós.").data (by decide) (by decide)

/-! ## Concrete inputs for the counterexamples -/

/-- A 201-character transcript with a lone introduction marker at offset
100 and no other scanner pattern anywhere. -/
def c1Text : String :=
  "el perro corre mucho. el perro corre mucho. el perro corre mucho. el perro corre mucho. el gato ve. " ++
  "Te doy la bienvenida a mi casa bonita y comoda hoy dia. el sol brilla en el cielo azul. la luna sale."

/-- The 101-character suffix of `c1Text` from the introduction marker on. -/
def c1Tail : String :=
  "Te doy la bienvenida a mi casa bonita y comoda hoy dia. el sol brilla en el cielo azul. la luna sale."

/-- A 196-character transcript with an introduction marker at offset 118,
used with the huge audio duration that drives every threshold to zero. -/
def c3Text : String :=
  "el perro corre mucho. el perro corre mucho. el perro corre mucho. el perro corre mucho. el gato ve. el raton es gris. " ++
  "Te doy la bienvenida a mi casa bonita y comoda hoy. el sol brilla en el cielo."

/-- C3: the claim says episode detection never raises, but on `c3Text`
with `audio_duration = 100000.0` the thresholds truncate to zero
(`int(210·(196/100000)) = 0`), the 196-character segment exceeds
`max = 0`, and `num_splits_needed = max(1, int(segment_length /
max_chars_per_episode))` divides by zero — Python raises
`ZeroDivisionError`. -/
theorem pyInt_eq_zero_of_lt_one {q : ℚ} (h0 : 0 ≤ q) (h1 : q < 1) :
    pyInt q = 0 := by
  rw [pyInt_eq_floor h0, Int.floor_eq_zero_iff, Set.mem_Ico]
  exact ⟨h0, h1⟩

theorem c3_division_by_zero :
    splitByEpisodePatternsS c3Text (some 100000) =
      Except.error PyErr.zeroDivision ∧
    c3Text ≠ "" ∧ c3Text.length = 196 := by
  refine ⟨?_, by decide, by decide⟩
  have hT : computeThresholds c3Text.data.length (some 100000) = ⟨0, 0, 0, 0⟩ := by
    have hlen : c3Text.data.length = 196 := by decide
    rw [hlen]
    simp only [computeThresholds]
    rw [if_pos ⟨by norm_num, by norm_num⟩]
    have hr : ((196 : ℕ) : ℚ) / (100000 : ℚ) = 49 / 25000 := by norm_num
    rw [hr, pyInt_eq_zero_of_lt_one (by norm_num) (by norm_num),
      pyInt_eq_zero_of_lt_one (by norm_num) (by norm_num),
      pyInt_eq_zero_of_lt_one (by norm_num) (by norm_num),
      pyInt_eq_zero_of_lt_one (by norm_num) (by norm_num)]
  simp only [splitByEpisodePatternsS, split_by_episode_patterns, filteredSplits,
    ctxOf, hT]
  decide

/-- The non-whitespace characters of a text, in order.  Any concatenation
of episode texts interleaved with whitespace-only padding preserves this
sequence, so differing `nonWsChars` refutes the round-trip property. -/
def nonWsChars (l : List Char) : List Char :=
  l.filter (fun c => ¬ isPySpace c)

/-- C1 counterexample: on `c1Text` (201 characters, non-empty) the
splitter returns the single episode `c1Tail` — the text from offset 100 on
— because the proximity filter replaces the initial boundary 0 by the
introduction candidate at offset 100.  The first episode does not start at
offset 0, and the episodes' non-whitespace characters differ from the
text's, so no re-insertion of trimmed whitespace can reproduce the input:
the partition/round-trip invariant fails. -/
theorem c1_counterexample :
    splitByEpisodePatternsS c1Text none = Except.ok [c1Tail] ∧
    nonWsChars c1Tail.data ≠ nonWsChars c1Text.data ∧
    c1Text ≠ "" ∧ c1Text.length = 201 ∧ c1Tail.length = 101 := by
  refine ⟨by decide, by decide, by decide, by decide, by decide⟩

/-- A 207-character already-stripped episode text (length below the
fallback `max = 3000`) containing one introduction marker at offset 104. -/
def c9Text : String :=
  "la vaca come pasto verde. la vaca come pasto verde. la vaca come pasto verde. la vaca come pasto verde. " ++
  "Te doy la bienvenida a la granja tranquila y feliz. aqui vive el pollo y vive la cabra feliz y sana hoy."

/-- The suffix of `c9Text` from its introduction marker on. -/
def c9Tail : String :=
  "Te doy la bienvenida a la granja tranquila y feliz. aqui vive el pollo y vive la cabra feliz y sana hoy."

/-- C9 counterexample: `c9Text` is a single already-stripped episode text
of 208 characters — well below the fallback `max = 3000` — yet feeding it
back through the splitter does not return it unchanged: the proximity
filter trades the initial boundary for the introduction candidate at
offset 104, and the resulting single episode is the 104-character suffix
`c9Tail`.  The Refiner is therefore not idempotent on already-bounded
episodes. -/
theorem c9_counterexample :
    c9Text.length = 208 ∧ c9Text.length ≤ 3000 ∧
    pyStripS c9Text = c9Text ∧
    splitByEpisodePatternsS c9Text none = Except.ok [c9Tail] ∧
    c9Tail ≠ c9Text := by
  refine ⟨by decide, by decide, by decide, by decide, by decide⟩

/-- The split-pass driver exits immediately when the index is past the
candidate list. -/
theorem splitPassGo_exit (ctx : SplitCtx) (fuel : Nat) (refined finalS : List Nat)
    (i : Nat) (hi : refined.length ≤ i) (hf : 0 < fuel) :
    splitPassGo ctx fuel refined finalS i = .ok finalS := by
  cases fuel with
  | zero => omega
  | succ f => simp [splitPassGo, Nat.not_lt.mpr hi]

/-- The proximity filter keeps `[0, L]` unchanged for `L ≠ 0`. -/
theorem proximityFilter_pair (minC L : Nat) (hL : L ≠ 0) :
    proximityFilter minC L [0, L] = [0, L] := by
  show (if 5 * L ≥ 5 * ([0] : List Nat).getLastD 0 + 2 * minC then [0] ++ [L]
      else if L = L then
        (if ([0] : List Nat).getLastD 0 ≠ L then [0] ++ [L] else [0])
      else ([0] : List Nat).dropLast ++ [L]) = [0, L]
  by_cases h : 5 * L ≥ 5 * ([0] : List Nat).getLastD 0 + 2 * minC
  · rw [if_pos h]; rfl
  · rw [if_neg h, if_pos rfl,
      if_pos (show ([0] : List Nat).getLastD 0 ≠ L from
        fun hh => hL (by simpa using hh.symm))]
    rfl

/-- When the scanner finds no candidate besides 0, the merge and split
passes are inert and the whole text becomes one episode: the stripped text
when it is long enough, the raw text otherwise.  (Shared backbone of the
C7 and C9 results.) -/
theorem singleEpisode_of_noCandidates (E : String)
    (hscan : scannerCandidates E.data = [0]) :
    splitByEpisodePatternsS E none =
      Except.ok (if 100 < (pyStrip E.data).length
        then [String.mk (pyStrip E.data)] else [E]) := by
  by_cases hL : E.data.length = 0
  · have hE : E = "" := by
      cases E with
      | mk d =>
        cases d with
        | nil => rfl
        | cons a t => simp at hL
    subst hE
    decide
  · unfold splitByEpisodePatternsS split_by_episode_patterns filteredSplits
    rw [hscan]
    have hctx : ctxOf E.data none = ⟨E.data, 2000, 1500, 3000, 3500⟩ := rfl
    rw [hctx]
    have hmerge : mergePass ⟨E.data, 2000, 1500, 3000, 3500⟩ [0] = [0] := by
      simp [mergePass, mergePassGo]
    simp only [hmerge, List.headD_cons]
    rw [splitPassGo_exit _ _ _ _ _ (by simp) (by positivity)]
    have h1 : ensureEndsAt E.data.length [0] = [0, E.data.length] := by
      unfold ensureEndsAt
      rw [if_pos]
      · rfl
      · intro hh
        exact hL (by simpa using hh.symm)
    have h2 : ensureEndsAt E.data.length [0, E.data.length] =
        [0, E.data.length] := by
      unfold ensureEndsAt
      rw [if_neg]
      intro hh
      simp at hh
    have h3 : episodesFromSplits E.data [0, E.data.length] =
        (if 100 < (pyStrip E.data).length
          then [String.mk (pyStrip E.data)] else []) := by
      simp only [episodesFromSplits, List.zip_cons_cons, List.tail_cons,
        List.zip_nil_right, List.filterMap_cons, List.filterMap_nil]
      have hsl : pySlice E.data 0 E.data.length = E.data := by
        simp [pySlice]
      rw [hsl]
      by_cases h : 100 < (pyStrip E.data).length
      · simp [h]
      · simp [h]
    simp only [h1, proximityFilter_pair _ _ hL, h2, h3]
    by_cases h : 100 < (pyStrip E.data).length
    · simp [h]
    · cases E with
      | mk d => simp [h]

/-- C9 (amended): the Refiner is idempotent on a single already-bounded
episode *provided* the Boundary Candidate Scanner finds no candidate in it
(the candidate list is just `[0]`): feeding such an already-stripped text
of length at most the fallback `max = 3000` back through
`split_by_episode_patterns` returns exactly one unchanged episode. -/
theorem c9_refeed_idempotent (E : String) (hb : E.length ≤ 3000)
    (hstrip : pyStrip E.data = E.data)
    (hscan : scannerCandidates E.data = [0]) :
    splitByEpisodePatternsS E none = Except.ok [E] := by
  rw [singleEpisode_of_noCandidates E hscan, hstrip]
  by_cases h : 100 < E.data.length
  · cases E with
    | mk d => simp [h]
  · simp [h]

/-- A 33-character candidate-free episode for the C9 witness. -/
def c9Small : String := "el perro corre mucho. el gato ve."

/-- Witness for C9 (amended) on `c9Small`. -/
theorem c9_refeed_idempotent_witness :
    splitByEpisodePatternsS c9Small none = Except.ok [c9Small] :=
  c9_refeed_idempotent c9Small (by decide) (by decide) (by decide)

/-- C7 (amended): the split pass iterates only over scanner candidates, so
for a span with no recognizable introduction/closing/narrator marker (the
candidate list is just `[0]`) **no** split happens at all — whatever the
length, the text is returned as one episode (stripped, when more than 100
characters remain).  The forced midpoint fallback of source lines 657–723
is unreachable for such texts. -/
theorem c7_no_split_without_candidates (E : String)
    (hscan : scannerCandidates E.data = [0])
    (hlen : 100 < (pyStrip E.data).length) :
    splitByEpisodePatternsS E none = Except.ok [String.mk (pyStrip E.data)] := by
  rw [singleEpisode_of_noCandidates E hscan, if_pos hlen]

/-- A 117-character marker-free span for the C7 witness. -/
def c7Small : String :=
  "el rio fluye lento por el valle verde. el rio fluye lento por el valle verde. el rio fluye lento por el valle verde."

/-- Witness for C7 (amended) on `c7Small`. -/
theorem c7_no_split_without_candidates_witness :
    splitByEpisodePatternsS c7Small none =
      Except.ok [String.mk (pyStrip c7Small.data)] :=
  c7_no_split_without_candidates c7Small (by decide) (by decide)

/-! ## The 5000-character marker-free span of Scenario D

`c7Text` is built from 200 copies of a 25-character unit over the alphabet
`{b, c, d, ' ', '.'}`; no scanner pattern can match anywhere in it, which
is established structurally (the text is too large for kernel
evaluation). -/

/-- The 25-character building unit. -/
def c7Unit : String := "bcb bcb bcb bcb bcb bcbd."

/-- The 5000-character marker-free span. -/
def c7Text : String := String.mk ((List.replicate 200 c7Unit.data).flatten)

/-- The characters that may occur in `c7Text`. -/
def c7Alphabet : List Char := ['b', 'c', 'd', ' ', '.']

/-- A case-insensitive literal fails on a character its head cannot
match. -/
def headBlocked (pat : List Char) (c : Char) : Bool :=
  match pat with
  | [] => false
  | p :: _ => !(eqCI p c)

/-- `mLitCI` fails outright when its first character cannot match. -/
theorem mLitCI_none_of_headBlocked {pat : List Char} {c : Char}
    (rest : List Char) (h : headBlocked pat c = true) :
    mLitCI pat (c :: rest) = none := by
  cases pat with
  | nil => simp [headBlocked] at h
  | cons p ps =>
    simp only [headBlocked, Bool.not_eq_true'] at h
    simp [mLitCI, mLitCI.go, h]

/-- `mSeq` fails when its first component fails. -/
theorem mSeq_none_left (a b : Matcher) (s : List Char) (h : a s = none) :
    mSeq a b s = none := by
  simp [mSeq, h]

/-- `mPlus` fails on a character outside its class. -/
theorem mPlus_none {cls : Char → Bool} {c : Char} (rest : List Char)
    (h : cls c = false) : mPlus cls (c :: rest) = none := by
  simp [mPlus, List.takeWhile, h]

/-- Every scanner matcher fails at every position of a text over
`c7Alphabet`: the narrator, closing and introduction patterns all begin
with a letter (or digit) that no character of the alphabet can match. -/
theorem scanMatchersFail (c : Char) (hc : c ∈ c7Alphabet) (rest : List Char) :
    ∀ m ∈ narratorMatchers ++ closingMatchers ++ introMatchers,
      m (c :: rest) = none := by
  intro m hm
  have hIntro : ∀ p ∈ intro_patterns, headBlocked p c = true := by
    have hall : intro_patterns.all (fun q => headBlocked q c) = true := by
      fin_cases hc <;> decide
    exact fun p hp => List.all_eq_true.mp hall p hp
  rcases List.mem_append.mp hm with hm2 | hmI
  · rcases List.mem_append.mp hm2 with hmN | hmC
    · fin_cases hmN
      · exact mSeq_none_left _ _ _ (mLitCI_none_of_headBlocked _ (by fin_cases hc <;> decide))
      · exact mSeq_none_left _ _ _ (mLitCI_none_of_headBlocked _ (by fin_cases hc <;> decide))
      · exact mSeq_none_left _ _ _ (mLitCI_none_of_headBlocked _ (by fin_cases hc <;> decide))
      · exact mSeq_none_left _ _ _ (mLitCI_none_of_headBlocked _ (by fin_cases hc <;> decide))
      · exact mSeq_none_left _ _ _ (mPlus_none _ (by fin_cases hc <;> decide))
      · exact mSeq_none_left _ _ _ (mLitCI_none_of_headBlocked _ (by fin_cases hc <;> decide))
      · exact mSeq_none_left _ _ _ (mLitCI_none_of_headBlocked _ (by fin_cases hc <;> decide))
      · exact mSeq_none_left _ _ _ (mLitCI_none_of_headBlocked _ (by fin_cases hc <;> decide))
      · exact mSeq_none_left _ _ _ (mLitCI_none_of_headBlocked _ (by fin_cases hc <;> decide))
    · fin_cases hmC
      · exact mSeq_none_left _ _ _ (mLitCI_none_of_headBlocked _ (by fin_cases hc <;> decide))
      · exact mSeq_none_left _ _ _ (mLitCI_none_of_headBlocked _ (by fin_cases hc <;> decide))
      · exact mSeq_none_left _ _ _ (mLitCI_none_of_headBlocked _ (by fin_cases hc <;> decide))
      · exact mSeq_none_left _ _ _ (mLitCI_none_of_headBlocked _ (by fin_cases hc <;> decide))
  · obtain ⟨p, hp, rfl⟩ := List.mem_map.mp hmI
    exact mLitCI_none_of_headBlocked _ (hIntro p hp)

/-- `finditer` finds nothing when the matcher fails on every suffix. -/
theorem finditerAux_nil_of_fail (m : Matcher)
    (hfail : ∀ (c : Char), c ∈ c7Alphabet → ∀ rest, m (c :: rest) = none) :
    ∀ (l : List Char), (∀ c ∈ l, c ∈ c7Alphabet) →
      ∀ (fuel p : Nat), finditerAux m fuel l p = []
  | [], _, fuel, _ => by cases fuel <;> simp [finditerAux]
  | c :: rest, hl, fuel, p => by
    cases fuel with
    | zero => simp [finditerAux]
    | succ f =>
      simp only [finditerAux]
      rw [hfail c (hl c (by simp)) rest]
      exact finditerAux_nil_of_fail m hfail rest
        (fun x hx => hl x (by simp [hx])) f (p + 1)

/-- Every character of `c7Text` lies in `c7Alphabet`. -/
theorem c7Text_chars : ∀ c ∈ c7Text.data, c ∈ c7Alphabet := by
  intro c hc
  have hd : c7Text.data = (List.replicate 200 c7Unit.data).flatten := rfl
  rw [hd] at hc
  obtain ⟨l, hl, hcl⟩ := List.mem_flatten.mp hc
  rw [List.eq_of_mem_replicate hl] at hcl
  have hall : c7Unit.data.all (fun x => x ∈ c7Alphabet) = true := by decide
  have := List.all_eq_true.mp hall c hcl
  simpa using this

/-- A fold that never changes the accumulator is the identity. -/
theorem foldl_const_of_fixed {α β : Type} (g : β → α → β) :
    ∀ (ms : List α) (b : β), (∀ a ∈ ms, g b a = b) → ms.foldl g b = b
  | [], _, _ => rfl
  | a :: ms, b, h => by
    rw [List.foldl_cons, h a (by simp)]
    exact foldl_const_of_fixed g ms b (fun x hx => h x (by simp [hx]))

/-- The scanner finds no candidate in `c7Text`. -/
theorem c7Text_scan : scannerCandidates c7Text.data = [0] := by
  have hfind : ∀ m ∈ narratorMatchers ++ closingMatchers ++ introMatchers,
      finditer m c7Text.data = [] := by
    intro m hm
    exact finditerAux_nil_of_fail m
      (fun c hc rest => scanMatchersFail c hc rest m hm)
      c7Text.data c7Text_chars _ 0
  unfold scannerCandidates
  have h1 : narratorMatchers.foldl
      (fun acc m => addNarratorCandidates c7Text.data m acc) [0] = [0] := by
    apply foldl_const_of_fixed
    intro m hm
    simp [addNarratorCandidates, hfind m (by simp [hm])]
  have h2 : closingMatchers.foldl
      (fun acc m => addClosingCandidates c7Text.data m acc) [0] = [0] := by
    apply foldl_const_of_fixed
    intro m hm
    simp [addClosingCandidates, hfind m (by simp [hm])]
  have h3 : introMatchers.foldl
      (fun acc m => addIntroCandidates c7Text.data m acc) [0] = [0] := by
    apply foldl_const_of_fixed
    intro m hm
    simp [addIntroCandidates, hfind m (by simp [hm])]
  simp only [h1, h2, h3]
  decide

/-- `strip` is the identity on a text with non-whitespace first and last
characters. -/
theorem pyStrip_eq_self_of_ends {l : List Char}
    (h1 : ∀ c, l.head? = some c → isPySpace c = false)
    (h2 : ∀ c, l.getLast? = some c → isPySpace c = false) :
    pyStrip l = l := by
  unfold pyStrip
  have hd : l.dropWhile isPySpace = l := by
    cases l with
    | nil => rfl
    | cons a t => simp [List.dropWhile_cons, h1 a rfl]
  rw [hd]
  have hr : l.reverse.dropWhile isPySpace = l.reverse := by
    cases hrev : l.reverse with
    | nil => rfl
    | cons a t =>
      have ha : l.getLast? = some a := by
        rw [← List.head?_reverse, hrev]
        rfl
      simp [List.dropWhile_cons, h2 a ha]
  rw [hr, List.reverse_reverse]

/-- Length of a flattened replicate. -/
theorem flatten_replicate_length {α : Type} (u : List α) :
    ∀ n, ((List.replicate n u).flatten).length = n * u.length
  | 0 => by simp
  | n + 1 => by
    rw [show List.replicate (n + 1) u = u :: List.replicate n u from rfl,
      List.flatten_cons, List.length_append, flatten_replicate_length u n]
    ring

/-- Last element of a flattened replicate of a non-empty list. -/
theorem flatten_replicate_getLast {α : Type} (u : List α) (hu : u ≠ []) :
    ∀ n, 1 ≤ n → ((List.replicate n u).flatten).getLast? = u.getLast?
  | 1, _ => by simp
  | n + 2, _ => by
    have ih := flatten_replicate_getLast u hu (n + 1) (by omega)
    rw [show List.replicate (n + 2) u = u :: List.replicate (n + 1) u from rfl,
      List.flatten_cons]
    have hne : ((List.replicate (n + 1) u).flatten) ≠ [] := by
      intro hcon
      have hlen := congrArg List.length hcon
      rw [flatten_replicate_length] at hlen
      simp only [List.length_nil, Nat.mul_eq_zero] at hlen
      rcases hlen with h | h
      · omega
      · exact hu (List.length_eq_zero.mp h)
    rw [List.getLast?_append_of_ne_nil u hne, ih]

/-- `c7Text` needs no stripping. -/
theorem c7Text_strip : pyStrip c7Text.data = c7Text.data := by
  apply pyStrip_eq_self_of_ends
  · intro c hc
    have hh : c7Text.data.head? = some 'b' := rfl
    rw [hh] at hc
    cases hc
    decide
  · intro c hc
    have h := flatten_replicate_getLast c7Unit.data (by decide) 200 (by omega)
    rw [show c7Text.data = (List.replicate 200 c7Unit.data).flatten from rfl,
      h, show c7Unit.data.getLast? = some '.' by decide] at hc
    cases hc
    decide

/-- The length of `c7Text` is exactly 5000. -/
theorem c7Text_length : c7Text.length = 5000 := by
  show c7Text.data.length = 5000
  rw [show c7Text.data = (List.replicate 200 c7Unit.data).flatten from rfl,
    flatten_replicate_length, show c7Unit.data.length = 25 by decide]

/-- C7 counterexample: on a 5000-character span with no duration signal
and no recognizable introduction/closing/narrator markers anywhere, the
splitter performs *no* split — it returns the whole span as a single
episode, instead of the claimed forced split at the sentence boundary
nearest the midpoint into two spans of at least 1125 characters. -/
theorem c7_counterexample :
    c7Text.length = 5000 ∧
    splitByEpisodePatternsS c7Text none = Except.ok [c7Text] := by
  refine ⟨c7Text_length, ?_⟩
  have h := singleEpisode_of_noCandidates c7Text c7Text_scan
  rw [c7Text_strip] at h
  have hlen : (100 : Nat) < c7Text.data.length := by
    have := c7Text_length
    simp only [String.length] at this
    omega
  rw [h, if_pos hlen]

/-- Membership in `setInsert`. -/
theorem mem_setInsert {acc : List String} {x n : String}
    (h : x ∈ setInsert acc n) : x ∈ acc ∨ x = n := by
  unfold setInsert at h
  by_cases hn : n ∈ acc
  · rw [if_pos hn] at h
    exact Or.inl h
  · rw [if_neg hn] at h
    rcases List.mem_append.mp h with h1 | h1
    · exact Or.inl h1
    · simp at h1
      exact Or.inr h1

/-- `setInsert` preserves duplicate-freeness. -/
theorem nodup_setInsert {acc : List String} (n : String) (h : acc.Nodup) :
    (setInsert acc n).Nodup := by
  unfold setInsert
  by_cases hn : n ∈ acc
  · rw [if_pos hn]
    exact h
  · rw [if_neg hn]
    rw [← List.concat_eq_append]
    exact List.Nodup.concat hn h

/-- Fold preservation of an accumulator invariant, with list membership
available to the step hypothesis. -/
theorem foldl_preserves_mem {α β : Type} (g : β → α → β) (P : β → Prop) :
    ∀ (l : List α), (∀ b a, a ∈ l → P b → P (g b a)) →
      ∀ b, P b → P (l.foldl g b)
  | [], _, _, hb => hb
  | a :: l, hg, b, hb => by
    rw [List.foldl_cons]
    exact foldl_preserves_mem g P l (fun b' a' ha' => hg b' a' (by simp [ha']))
      (g b a) (hg b a (by simp) hb)

/-- The invariant maintained while collecting names: every collected name
has at least 3 characters and avoids the stop-list, and the accumulator is
duplicate-free. -/
def NamesInv (acc : List String) : Prop :=
  (∀ x ∈ acc, 3 ≤ x.length ∧ x ∉ common_words) ∧ acc.Nodup

/-- `patternStep` preserves the invariant: the explicit
`len(name) > 2 and name not in common_words` filter guards insertion. -/
theorem patternStep_inv (acc : List String) (cap : List Char)
    (h : NamesInv acc) : NamesInv (patternStep acc cap) := by
  unfold patternStep
  by_cases hc : (String.mk (pyStrip cap) ≠ "" ∧
      String.mk (pyStrip cap) ∉ common_words ∧
      (String.mk (pyStrip cap)).length > 2)
  · rw [if_pos hc]
    refine ⟨?_, nodup_setInsert _ h.2⟩
    intro x hx
    rcases mem_setInsert hx with h1 | h1
    · exact h.1 x h1
    · subst h1
      exact ⟨by omega, hc.2.1⟩
  · rw [if_neg hc]
    exact h

/-- Words found by the capitalized-token scan have at least 3
characters: one capital plus at least two lowercase letters. -/
theorem findCapWordsAux_length :
    ∀ (fuel : Nat) (b : Bool) (l : List Char),
      ∀ w ∈ findCapWordsAux fuel b l, 3 ≤ w.length
  | 0, _, _ => by simp [findCapWordsAux]
  | _ + 1, _, [] => by simp [findCapWordsAux]
  | fuel + 1, b, c :: rest => by
    intro w hw
    simp only [findCapWordsAux] at hw
    by_cases h1 : (¬ b = true ∧ isUpperAZ c = true)
    · rw [if_pos h1] at hw
      by_cases h2 : (2 ≤ (rest.takeWhile isLowerAZ).length ∧
          notWordAhead (rest.drop (rest.takeWhile isLowerAZ).length) = true)
      · rw [if_pos h2] at hw
        rcases List.mem_cons.mp hw with h3 | h3
        · subst h3
          have h4 := h2.1
          simp only [List.length_cons]
          omega
        · exact findCapWordsAux_length fuel true _ w h3
      · rw [if_neg h2] at hw
        exact findCapWordsAux_length fuel _ rest w hw
    · rw [if_neg h1] at hw
      exact findCapWordsAux_length fuel _ rest w hw

/-- `pyStrLeB` is total. -/
theorem pyStrLeB_total : ∀ a b : List Char,
    pyStrLeB a b = true ∨ pyStrLeB b a = true
  | [], b => Or.inl (by cases b <;> rfl)
  | _ :: _, [] => Or.inr rfl
  | x :: xs, y :: ys => by
    rcases lt_trichotomy x y with h | h | h
    · exact Or.inl (by simp [pyStrLeB, h])
    · subst h
      rcases pyStrLeB_total xs ys with h2 | h2
      · exact Or.inl (by simp [pyStrLeB, lt_irrefl, h2])
      · exact Or.inr (by simp [pyStrLeB, lt_irrefl, h2])
    · exact Or.inr (by simp [pyStrLeB, h])

/-- `pyStrLeB` is transitive. -/
theorem pyStrLeB_trans : ∀ a b c : List Char,
    pyStrLeB a b = true → pyStrLeB b c = true → pyStrLeB a c = true
  | [], _, c, _, _ => by cases c <;> rfl
  | _ :: _, [], _, h, _ => by simp [pyStrLeB] at h
  | _ :: _, _ :: _, [], _, h => by simp [pyStrLeB] at h
  | x :: xs, y :: ys, z :: zs, h1, h2 => by
    simp only [pyStrLeB] at h1 h2 ⊢
    by_cases hxy : x < y
    · by_cases hyz : y < z
      · simp [lt_trans hxy hyz]
      · by_cases hzy : z < y
        · simp only [if_pos hyz, if_neg hyz, if_pos hzy] at h2
          simp at h2
        · have : y = z := le_antisymm (not_lt.mp hzy) (not_lt.mp hyz)
          subst this
          simp [hxy]
    · by_cases hyx : y < x
      · simp only [if_neg hxy, if_pos hyx] at h1
        simp at h1
      · have hxyeq : x = y := le_antisymm (not_lt.mp hyx) (not_lt.mp hxy)
        subst hxyeq
        simp only [if_neg hxy, lt_irrefl, if_neg (lt_irrefl x)] at h1
        by_cases hyz : x < z
        · simp [hyz]
        · by_cases hzy : z < x
          · simp only [if_neg hyz, if_pos hzy] at h2
            simp at h2
          · have : x = z := le_antisymm (not_lt.mp hzy) (not_lt.mp hyz)
            subst this
            simp only [lt_irrefl, if_neg (lt_irrefl x)] at h1 h2 ⊢
            exact pyStrLeB_trans xs ys zs h1 h2

/-- A weak `pyStrLeB` together with inequality gives the strict
lexicographic order `List.Lex (· < ·)`. -/
theorem lex_of_pyStrLeB_ne : ∀ a b : List Char,
    pyStrLeB a b = true → a ≠ b → List.Lex (· < ·) a b
  | [], [], _, hne => absurd rfl hne
  | [], _ :: _, _, _ => List.Lex.nil
  | _ :: _, [], h, _ => by simp [pyStrLeB] at h
  | x :: xs, y :: ys, h, hne => by
    simp only [pyStrLeB] at h
    by_cases hxy : x < y
    · exact List.Lex.rel hxy
    · by_cases hyx : y < x
      · simp [hxy, hyx] at h
      · have hxyeq : x = y := le_antisymm (not_lt.mp hyx) (not_lt.mp hxy)
        subst hxyeq
        simp only [lt_irrefl, if_neg (lt_irrefl x)] at h
        have hne2 : xs ≠ ys := by
          intro hcon
          exact hne (by rw [hcon])
        exact List.Lex.cons (lex_of_pyStrLeB_ne xs ys h hne2)

/-- `pyStrLe` together with inequality gives `String.<`. -/
theorem strLt_of_pyStrLe_ne {a b : String} (h : pyStrLe a b) (hne : a ≠ b) :
    a < b := by
  have hd : a.data ≠ b.data := by
    intro hcon
    exact hne (congrArg String.mk hcon)
  have hl := lex_of_pyStrLeB_ne a.data b.data h hd
  exact String.lt_iff_toList_lt.mpr hl

/-- C10: for every input text, `extract_speaker_names` returns a list of
distinct names sorted in strictly ascending (code-point) order, in which
every name has at least 3 characters and no name belongs to the fixed
stop-list — covering both the pattern-matched names and the
3-or-more-occurrences capitalized-token frequency heuristic. -/
theorem c10_extracted_names (text : List Char) :
    (extract_speaker_names text).Sorted (· < ·) ∧
    ∀ n ∈ extract_speaker_names text,
      3 ≤ n.length ∧ n ∉ common_words := by
  unfold extract_speaker_names
  set goodWords := ((findCapWords text).map String.mk).filter
    (fun w => w ∉ common_words) with hgw
  have hacc1 : NamesInv (namePatterns.foldl
      (fun acc cm => (findCaptures cm text).foldl patternStep acc) []) := by
    apply foldl_preserves_mem _ NamesInv namePatterns
    · intro b cm _ hb
      exact foldl_preserves_mem _ NamesInv (findCaptures cm text)
        (fun b2 cap _ hb2 => patternStep_inv b2 cap hb2) b hb
    · exact ⟨by simp, List.nodup_nil⟩
  have hacc2 : NamesInv (goodWords.dedup.foldl (freqStep goodWords)
      (namePatterns.foldl
        (fun acc cm => (findCaptures cm text).foldl patternStep acc) [])) := by
    apply foldl_preserves_mem _ NamesInv goodWords.dedup
    · intro b w hw hb
      unfold freqStep
      by_cases hcnt : 3 ≤ goodWords.count w
      · rw [if_pos hcnt]
        refine ⟨?_, nodup_setInsert _ hb.2⟩
        intro x hx
        rcases mem_setInsert hx with h1 | h1
        · exact hb.1 x h1
        · subst h1
          have hwmem : x ∈ goodWords := List.mem_dedup.mp hw
          rw [hgw] at hwmem
          have h2 := List.mem_filter.mp hwmem
          obtain ⟨v, hv, rfl⟩ := List.mem_map.mp h2.1
          have hv2 : v ∈ findCapWordsAux (text.length + 1) false text := hv
          exact ⟨findCapWordsAux_length _ _ _ v hv2, by simpa using h2.2⟩
      · rw [if_neg hcnt]
        exact hb
    · exact hacc1
  set acc2v := goodWords.dedup.foldl (freqStep goodWords)
    (namePatterns.foldl
      (fun acc cm => (findCaptures cm text).foldl patternStep acc) []) with hacc2v
  constructor
  · haveI : IsTotal String pyStrLe :=
      ⟨fun a b => pyStrLeB_total a.data b.data⟩
    haveI : IsTrans String pyStrLe :=
      ⟨fun a b c => pyStrLeB_trans a.data b.data c.data⟩
    have hs : (List.insertionSort pyStrLe acc2v).Sorted pyStrLe :=
      List.sorted_insertionSort pyStrLe acc2v
    have hn : (List.insertionSort pyStrLe acc2v).Nodup :=
      ((List.perm_insertionSort pyStrLe acc2v).nodup_iff).mpr hacc2.2
    exact (hs.and hn).imp (fun h => strLt_of_pyStrLe_ne h.1 h.2)
  · intro n hn
    have hmem : n ∈ acc2v :=
      (List.perm_insertionSort pyStrLe acc2v).mem_iff.mp hn
    exact hacc2.1 n hmem

/-- Witness for C10 on a concrete text with two extracted names. -/
theorem c10_extracted_names_witness :
    (extract_speaker_names ("Soy Maria. Carlos, gracias.").data).Sorted (· < ·) ∧
    (3 ≤ ("Carlos" : String).length ∧ ("Carlos" : String) ∉ common_words) :=
  ⟨(c10_extracted_names ("Soy Maria. Carlos, gracias.").data).1,
    (c10_extracted_names ("Soy Maria. Carlos, gracias.").data).2 "Carlos" (by decide)⟩

/-! ## Attribution coverage infrastructure (shared by the coverage and
narrator-phase analyses) -/

/-- The introduction section scanned for self-introductions (source lines
1283–1286). -/
def introSection (sents : List String) (marker : Option Nat) : List String :=
  if markerTruthy marker then sents.take (marker.getD 0) else sents.take 5

/-- `mainGuestOf` rephrased through `introSection`. -/
theorem mainGuestOf_eq (sents names : List String) (marker : Option Nat) :
    mainGuestOf sents names marker =
      match findFirstIntro (introSection sents marker) names with
      | some n => (n, (names.filter (fun x => x ≠ n)).head?)
      | none => (names.headD "", names.get? 1) := rfl

/-- `findFirstIntro` only returns detected names. -/
theorem findFirstIntro_mem : ∀ (ss names : List String) (n : String),
    findFirstIntro ss names = some n → n ∈ names
  | [], _, _, h => by simp [findFirstIntro] at h
  | s :: ss, names, n, h => by
    simp only [findFirstIntro] at h
    cases hf : names.find? (fun m => reTest (mSelfIntroName m) s.data) with
    | none =>
      rw [hf] at h
      exact findFirstIntro_mem ss names n h
    | some m =>
      rw [hf] at h
      injection h with h
      subst h
      exact List.mem_of_find?_eq_some hf

/-- The main speaker is a detected name. -/
theorem mainGuestOf_main_mem (sents names : List String) (marker : Option Nat)
    (h : names ≠ []) : (mainGuestOf sents names marker).1 ∈ names := by
  rw [mainGuestOf_eq]
  cases hf : findFirstIntro (introSection sents marker) names with
  | some n =>
    simp only
    exact findFirstIntro_mem _ names n hf
  | none =>
    simp only
    cases names with
    | nil => exact absurd rfl h
    | cons a t => exact List.mem_cons_self a t

/-- The guest speaker, when present, is a detected name. -/
theorem mainGuestOf_guest_mem (sents names : List String) (marker : Option Nat) :
    ∀ g, (mainGuestOf sents names marker).2 = some g → g ∈ names := by
  intro g hg
  rw [mainGuestOf_eq] at hg
  cases hf : findFirstIntro (introSection sents marker) names with
  | some n =>
    rw [hf] at hg
    have hg' : (names.filter (fun x => x ≠ n)).head? = some g := hg
    cases hfl : names.filter (fun x => x ≠ n) with
    | nil => rw [hfl] at hg'; cases hg'
    | cons x xs =>
      rw [hfl] at hg'
      injection hg' with hg'
      subst hg'
      exact List.mem_of_mem_filter (hfl ▸ List.mem_cons_self x xs)
  | none =>
    rw [hf] at hg
    exact List.get?_mem hg

/-- With at least two duplicate-free names the guest speaker is present. -/
theorem mainGuestOf_guest_isSome (sents names : List String) (marker : Option Nat)
    (hnd : names.Nodup) (hlen : 2 ≤ names.length) :
    (mainGuestOf sents names marker).2.isSome = true := by
  rw [mainGuestOf_eq]
  obtain ⟨a, b, r, rfl⟩ : ∃ a b r, names = a :: b :: r := by
    cases names with
    | nil => simp at hlen
    | cons a t =>
      cases t with
      | nil => simp at hlen
      | cons b r => exact ⟨a, b, r, rfl⟩
  cases hf : findFirstIntro (introSection sents marker) (a :: b :: r) with
  | none => rfl
  | some n =>
    simp only
    have hab : a ≠ b := by
      have h1 := List.nodup_cons.mp hnd
      exact fun h => h1.1 (h ▸ List.mem_cons_self b r)
    by_cases ha : a = n
    · have hb : b ≠ n := fun h => hab (by rw [ha, h])
      rw [List.filter_cons, if_neg (by simp [ha]), List.filter_cons,
        if_pos (by simp [hb])]
      rfl
    · rw [List.filter_cons, if_pos (by simp [ha])]
      rfl

/-- The labels the dialog-phase cascade can produce: the guest placeholder,
the main speaker, or a detected name. -/
def LabelOk (ctx : AttrCtx) (o : Option String) : Prop :=
  o = ctx.guest_speaker ∨ o = some ctx.main_speaker ∨
    ∃ n, o = some n ∧ n ∈ ctx.speaker_names

/-- The bare alternation only yields the guest or the main speaker. -/
theorem altBare_labelOk (ctx : AttrCtx) (last : Option String) :
    LabelOk ctx (altBare ctx last) := by
  unfold altBare LabelOk
  split
  · exact Or.inl rfl
  · exact Or.inr (Or.inl rfl)

/-- The guarded alternation only yields the guest or the main speaker. -/
theorem altGuarded_labelOk (ctx : AttrCtx) (last : Option String) :
    LabelOk ctx (altGuarded ctx last) := by
  unfold altGuarded LabelOk
  split
  · cases ctx.guest_speaker with
    | some g => exact Or.inl rfl
    | none => exact Or.inr (Or.inl rfl)
  · exact Or.inr (Or.inl rfl)

/-- The guarded alternation always yields a string label. -/
theorem altGuarded_isSome (ctx : AttrCtx) (last : Option String) :
    (altGuarded ctx last).isSome = true := by
  unfold altGuarded
  split
  · cases ctx.guest_speaker with
    | some g => rfl
    | none => rfl
  · rfl

/-- With a present guest the bare alternation yields a string label. -/
theorem altBare_isSome (ctx : AttrCtx) (last : Option String)
    (hg : ctx.guest_speaker.isSome = true) :
    (altBare ctx last).isSome = true := by
  unfold altBare
  split
  · exact hg
  · rfl

/-- Every label produced by the dialog-phase cascade is the guest, the
main speaker, or a detected name. -/
theorem dialogPhase_labelOk (ctx : AttrCtx) (st : AttrState) (s : List Char) :
    LabelOk ctx (dialogPhase ctx st s) := by
  unfold dialogPhase
  split
  · exact Or.inr (Or.inl rfl)
  · split
    · split
      · rename_i h
        exact Or.inr (Or.inr ⟨_, rfl, h⟩)
      · exact altBare_labelOk ctx st.last_speaker
    · split
      · split
        · split
          · exact Or.inl rfl
          · exact Or.inr (Or.inl rfl)
        · exact altBare_labelOk ctx st.last_speaker
      · split
        · split
          · split
            · exact Or.inl rfl
            · exact Or.inr (Or.inl rfl)
          · exact altBare_labelOk ctx st.last_speaker
        · split
          · exact altGuarded_labelOk ctx st.last_speaker
          · exact altGuarded_labelOk ctx st.last_speaker

/-- With a present guest the dialog-phase cascade always yields a label. -/
theorem dialogPhase_isSome (ctx : AttrCtx) (st : AttrState) (s : List Char)
    (hg : ctx.guest_speaker.isSome = true) :
    (dialogPhase ctx st s).isSome = true := by
  unfold dialogPhase
  split
  · rfl
  · split
    · split
      · rfl
      · exact altBare_isSome ctx st.last_speaker hg
    · split
      · split
        · split
          · exact hg
          · rfl
        · exact altBare_isSome ctx st.last_speaker hg
      · split
        · split
          · split
            · exact hg
            · rfl
          · exact altBare_isSome ctx st.last_speaker hg
        · split
          · exact altGuarded_isSome ctx st.last_speaker
          · exact altGuarded_isSome ctx st.last_speaker

/-- The phase chain yields `none` or a dialog-phase-shaped label. -/
theorem phaseChain_labelOk (ctx : AttrCtx) (st : AttrState) (i : Nat)
    (s : List Char) :
    phaseChain ctx st i s = none ∨ LabelOk ctx (phaseChain ctx st i s) := by
  unfold phaseChain
  split
  · split
    · split
      · exact Or.inr (Or.inr (Or.inl rfl))
      · split
        · exact Or.inr (Or.inr (Or.inl rfl))
        · exact Or.inr (dialogPhase_labelOk ctx st s)
    · exact Or.inl rfl
  · exact Or.inl rfl

/-- With a truthy marker and a present guest the phase chain always yields
a label. -/
theorem phaseChain_isSome (ctx : AttrCtx) (st : AttrState) (i : Nat)
    (s : List Char) (hm : markerTruthy ctx.word_review_marker = true)
    (hg : ctx.guest_speaker.isSome = true) :
    (phaseChain ctx st i s).isSome = true := by
  cases hmk : ctx.word_review_marker with
  | none => rw [hmk] at hm; simp [markerTruthy] at hm
  | some m =>
    rw [hmk] at hm
    have hm' : m ≠ 0 := by simpa [markerTruthy] using hm
    unfold phaseChain
    rw [hmk]
    show (if m ≠ 0 then
        if i < m then some ctx.main_speaker
        else if i = m then some ctx.main_speaker
        else dialogPhase ctx st s
      else none).isSome = true
    rw [if_pos hm']
    split
    · rfl
    · split
      · rfl
      · exact dialogPhase_isSome ctx st s hg

/-- The narrator-block result of one attribution step (label candidate,
new word count, new completion flag), as a standalone function. -/
def attrNarr (ctx : AttrCtx) (st : AttrState) (raw : String) :
    Option String × Nat × Bool :=
  if ctx.is_episode_start ∧ ¬ st.narrator_words_complete then
    let words_in_sentence := countWords (pyStrip raw.data)
    if st.word_count + words_in_sentence ≤ 4 then
      (some "Narrator", st.word_count + words_in_sentence,
        decide (4 ≤ st.word_count + words_in_sentence))
    else if st.word_count < 4 then
      (some "Narrator", st.word_count + words_in_sentence, true)
    else (none, st.word_count, st.narrator_words_complete)
  else (none, st.word_count, st.narrator_words_complete)

/-- The label of one attribution step, as a standalone function. -/
def attrLabel (ctx : AttrCtx) (st : AttrState) (i : Nat) (raw : String) :
    Option String :=
  match (attrNarr ctx st raw).1 with
  | none => phaseChain ctx
      ⟨(attrNarr ctx st raw).2.1, (attrNarr ctx st raw).2.2, st.last_speaker⟩
      i (pyStrip raw.data)
  | some nar =>
    match ctx.speaker_names.find?
        (fun n => reTest (mSelfIntroName n) (pyStrip raw.data)) with
    | some n => some n
    | none => some nar

/-- A step on a whitespace-only sentence emits nothing and keeps the
state. -/
theorem attrStep_empty (ctx : AttrCtx) (st : AttrState) (i : Nat) (raw : String)
    (h : pyStrip raw.data = []) : attrStep ctx st i raw = (none, st) := by
  simp [attrStep, h]

/-- A step on a non-empty sentence emits the stripped sentence with the
`attrLabel` label and updates the state from `attrNarr`. -/
theorem attrStep_nonempty_eq (ctx : AttrCtx) (st : AttrState) (i : Nat)
    (raw : String) (h : (pyStrip raw.data).isEmpty = false) :
    attrStep ctx st i raw =
      (some (String.mk (pyStrip raw.data), attrLabel ctx st i raw),
       ⟨(attrNarr ctx st raw).2.1, (attrNarr ctx st raw).2.2,
        attrLabel ctx st i raw⟩) := by
  simp only [attrStep, attrLabel, attrNarr, h, Bool.false_eq_true, if_false]

/-- A string made of a character list is empty iff the list is. -/
theorem stringMk_eq_empty_iff (l : List Char) : String.mk l = "" ↔ l = [] :=
  ⟨fun h => congrArg String.data h, fun h => by rw [h]⟩

/-- The emitted texts of the attribution walk are exactly the non-empty
stripped sentences, in order, whatever the starting state. -/
theorem attrWalk_fst (ctx : AttrCtx) :
    ∀ (sents : List String) (st : AttrState) (i : Nat),
      (attrWalk ctx st i sents).map Prod.fst
        = ((sents.map pyStripS).filter (fun s => s ≠ "")) := by
  intro sents
  induction sents with
  | nil => intro st i; rfl
  | cons raw rest ih =>
    intro st i
    by_cases hemp : (pyStrip raw.data).isEmpty = true
    · have he : pyStrip raw.data = [] := List.isEmpty_iff.mp hemp
      have hstr : pyStripS raw = "" := by
        rw [pyStripS, he]
      simp only [attrWalk, attrStep_empty ctx st i raw he, List.map_cons,
        List.filter_cons, hstr]
      rw [if_neg (by simp)]
      exact ih st (i + 1)
    · have hemp' : (pyStrip raw.data).isEmpty = false :=
        Bool.eq_false_iff.mpr hemp
      have hstr : pyStripS raw ≠ "" := by
        intro hc
        exact hemp ((stringMk_eq_empty_iff _).mp hc ▸ rfl)
      simp only [attrWalk, attrStep_nonempty_eq ctx st i raw hemp',
        List.map_cons, List.filter_cons]
      rw [if_pos (decide_eq_true hstr)]
      rw [ih]
      exact rfl

/-- The narrator block either sets no label or the label `"Narrator"`. -/
theorem attrNarr_fst (ctx : AttrCtx) (st : AttrState) (raw : String) :
    (attrNarr ctx st raw).1 = none ∨ (attrNarr ctx st raw).1 = some "Narrator" := by
  simp only [attrNarr]
  split
  · split
    · exact Or.inr rfl
    · split
      · exact Or.inr rfl
      · exact Or.inl rfl
  · exact Or.inl rfl

/-- Every pair emitted by the walk carries a string label that is either a
detected name or `"Narrator"`, whenever the marker is truthy and both the
main and the guest speakers are detected names. -/
theorem attrWalk_labels (ctx : AttrCtx)
    (hmain : ctx.main_speaker ∈ ctx.speaker_names)
    (hg : ∀ g, ctx.guest_speaker = some g → g ∈ ctx.speaker_names)
    (hgs : ctx.guest_speaker.isSome = true)
    (hm : markerTruthy ctx.word_review_marker = true) :
    ∀ (sents : List String) (st : AttrState) (i : Nat),
      ∀ p ∈ attrWalk ctx st i sents,
        ∃ s, p.2 = some s ∧ (s ∈ ctx.speaker_names ∨ s = "Narrator") := by
  have hlab : ∀ (st : AttrState) (i : Nat) (raw : String),
      ∃ s, attrLabel ctx st i raw = some s ∧
        (s ∈ ctx.speaker_names ∨ s = "Narrator") := by
    intro st i raw
    unfold attrLabel
    cases hn : (attrNarr ctx st raw).1 with
    | some nar =>
      have hnar : nar = "Narrator" := by
        rcases attrNarr_fst ctx st raw with h | h
        · rw [h] at hn; cases hn
        · rw [h] at hn; injection hn with hn; exact hn.symm
      cases hf : ctx.speaker_names.find?
          (fun n => reTest (mSelfIntroName n) (pyStrip raw.data)) with
      | some n => exact ⟨n, rfl, Or.inl (List.mem_of_find?_eq_some hf)⟩
      | none => exact ⟨nar, rfl, Or.inr hnar⟩
    | none =>
      have h1 := phaseChain_isSome ctx
        ⟨(attrNarr ctx st raw).2.1, (attrNarr ctx st raw).2.2, st.last_speaker⟩
        i (pyStrip raw.data) hm hgs
      have h2 := phaseChain_labelOk ctx
        ⟨(attrNarr ctx st raw).2.1, (attrNarr ctx st raw).2.2, st.last_speaker⟩
        i (pyStrip raw.data)
      obtain ⟨s, hs⟩ := Option.isSome_iff_exists.mp h1
      refine ⟨s, hs, ?_⟩
      rcases h2 with hnone | hok
      · rw [hs] at hnone; cases hnone
      · unfold LabelOk at hok
        rcases hok with h3 | h3 | ⟨n, h3, hn⟩
        · rw [hs] at h3
          exact Or.inl (hg s h3.symm)
        · rw [hs] at h3
          injection h3 with h3
          exact Or.inl (h3 ▸ hmain)
        · rw [hs] at h3
          injection h3 with h3
          exact Or.inl (h3 ▸ hn)
  intro sents
  induction sents with
  | nil => intro st i p hp; cases hp
  | cons raw rest ih =>
    intro st i p hp
    by_cases hemp : (pyStrip raw.data).isEmpty = true
    · have he : pyStrip raw.data = [] := List.isEmpty_iff.mp hemp
      simp only [attrWalk, attrStep_empty ctx st i raw he] at hp
      exact ih st (i + 1) p hp
    · have hemp' : (pyStrip raw.data).isEmpty = false :=
        Bool.eq_false_iff.mpr hemp
      simp only [attrWalk, attrStep_nonempty_eq ctx st i raw hemp'] at hp
      rcases List.mem_cons.mp hp with h1 | h1
      · subst h1
        exact hlab st i raw
      · exact ih _ (i + 1) p h1

/-- Shape of the zero-names branch: the emitted texts are the non-empty
stripped split pieces and every label is a generic speaker label. -/
theorem zeroNames_shape (pieces : List (List Char)) : ∀ n : Nat,
    ((pieces.enumFrom n).filterMap
        (fun pr =>
          let t := pyStrip pr.2
          if t.isEmpty then none
          else some (String.mk t,
            some (if pr.1 % 2 = 0 then "Speaker 1" else "Speaker 2")))).map Prod.fst
      = ((pieces.map (fun l => String.mk (pyStrip l))).filter (fun s => s ≠ ""))
    ∧ ∀ p ∈ (pieces.enumFrom n).filterMap
        (fun pr =>
          let t := pyStrip pr.2
          if t.isEmpty then none
          else some (String.mk t,
            some (if pr.1 % 2 = 0 then "Speaker 1" else "Speaker 2"))),
        p.2 = some "Speaker 1" ∨ p.2 = some "Speaker 2" := by
  induction pieces with
  | nil => intro n; exact ⟨rfl, fun p hp => absurd hp (by simp)⟩
  | cons piece rest ih =>
    intro n
    obtain ⟨ih1, ih2⟩ := ih (n + 1)
    by_cases hemp : (pyStrip piece).isEmpty = true
    · have he : pyStrip piece = [] := List.isEmpty_iff.mp hemp
      constructor
      · simp only [List.enumFrom_cons, List.filterMap_cons, List.map_cons,
          List.filter_cons, he, List.isEmpty_nil, if_true]
        rw [if_neg (by simp)]
        exact ih1
      · intro p hp
        simp only [List.enumFrom_cons, List.filterMap_cons, he,
          List.isEmpty_nil, if_true] at hp
        exact ih2 p hp
    · have hemp' : (pyStrip piece).isEmpty = false := Bool.eq_false_iff.mpr hemp
      have hne : String.mk (pyStrip piece) ≠ "" := by
        intro hc
        exact hemp ((stringMk_eq_empty_iff _).mp hc ▸ rfl)
      constructor
      · simp only [List.enumFrom_cons, List.filterMap_cons, List.map_cons,
          List.filter_cons, hemp', Bool.false_eq_true, if_false, List.map_cons]
        rw [if_pos (decide_eq_true hne)]
        rw [ih1]
      · intro p hp
        simp only [List.enumFrom_cons, List.filterMap_cons, hemp',
          Bool.false_eq_true, if_false] at hp
        rcases List.mem_cons.mp hp with h1 | h1
        · subst h1
          by_cases hpar : n % 2 = 0
          · rw [if_pos hpar]; exact Or.inl rfl
          · rw [if_neg hpar]; exact Or.inr rfl
        · exact ih2 p h1

/-- With at least one detected name, `identify_speakers` is the
attribution walk from the zero state under the computed context. -/
theorem identifySpeakers_nonempty (text : List Char) (names : List String)
    (is_episode_start : Bool) (hie : names.isEmpty = false) :
    identify_speakers text names is_episode_start
      = attrWalk
          ⟨names,
           (mainGuestOf (splitSentences text) names
              (findMarker (splitSentences text))).1,
           (mainGuestOf (splitSentences text) names
              (findMarker (splitSentences text))).2,
           findMarker (splitSentences text),
           computeHGI
             (mainGuestOf (splitSentences text) names
                (findMarker (splitSentences text))).1
             (mainGuestOf (splitSentences text) names
                (findMarker (splitSentences text))).2,
           is_episode_start⟩
          ⟨0, false, none⟩ 0 (splitSentences text) := by
  simp only [identify_speakers, identifySpeakersHGI, attrCtxOf, hie,
    Bool.false_eq_true, if_false]

/-- C2 counterexample: with exactly one detected name the questioned-name
branch labels `"Maria, ¿por qué"` with the falsy guest placeholder, and
with no word-review marker in the text every non-narrator sentence keeps
the `None` label — the fallback alternation block is attached to the
narrator branch, not to the phase chain. -/
theorem c2_counterexample :
    (identifySpeakersS
        "Soy Maria. Pero primero, estas son algunas palabras. Maria, ¿por qué. fin."
        ["Maria"] false).get? 2 = some ("Maria, ¿por qué", none) ∧
    identifySpeakersS "Hola amigos. Como estas." ["Maria"] false
      = [("Hola amigos", none), ("Como estas.", none)] := by
  constructor
  · decide
  · decide

/-- C2 (amended): every non-empty sentence receives exactly one label, in
order, and every label is a detected name or Narrator / Speaker 1 /
Speaker 2, provided the detected names are duplicate-free and either
absent or at least two with a truthy word-review marker. -/
theorem c2_attribution_coverage (text : String) (names : List String)
    (is_episode_start : Bool) (hnd : names.Nodup)
    (hcase : names = [] ∨ (2 ≤ names.length ∧
      markerTruthy (findMarker (splitSentences text.data)) = true)) :
    (identifySpeakersS text names is_episode_start).map Prod.fst
      = ((splitSentences text.data).map pyStripS).filter (fun s => s ≠ "") ∧
    ∀ p ∈ identifySpeakersS text names is_episode_start,
      ∃ s, p.2 = some s ∧
        (s ∈ names ∨
          s ∈ (["Narrator", "Speaker 1", "Speaker 2"] : List String)) := by
  rcases hcase with hnil | ⟨hlen, hm⟩
  · subst hnil
    have hout : identifySpeakersS text [] is_episode_start
        = ((reSplit mPunctWs text.data).enumFrom 0).filterMap
            (fun pr =>
              let t := pyStrip pr.2
              if t.isEmpty then none
              else some (String.mk t,
                some (if pr.1 % 2 = 0 then "Speaker 1" else "Speaker 2"))) := rfl
    obtain ⟨h1, h2⟩ := zeroNames_shape (reSplit mPunctWs text.data) 0
    constructor
    · rw [hout, h1]
      show _ = List.filter _ (((reSplit mPunctWs text.data).map String.mk).map pyStripS)
      rw [List.map_map]
      rfl
    · intro p hp
      rw [hout] at hp
      rcases h2 p hp with h3 | h3
      · exact ⟨"Speaker 1", h3, Or.inr (by decide)⟩
      · exact ⟨"Speaker 2", h3, Or.inr (by decide)⟩
  · have hne : names ≠ [] := by
      intro h; rw [h] at hlen; simp at hlen
    have hie : names.isEmpty = false := by
      cases names with
      | nil => exact absurd rfl hne
      | cons a t => rfl
    have hout := identifySpeakers_nonempty text.data names is_episode_start hie
    constructor
    · show (identify_speakers text.data names is_episode_start).map Prod.fst = _
      rw [hout]
      exact attrWalk_fst _ _ _ _
    · intro p hp
      have hp' := hp
      rw [show identifySpeakersS text names is_episode_start
            = identify_speakers text.data names is_episode_start from rfl,
          hout] at hp'
      obtain ⟨s, hs, hmem⟩ := attrWalk_labels _
        (mainGuestOf_main_mem (splitSentences text.data) names
          (findMarker (splitSentences text.data)) hne)
        (mainGuestOf_guest_mem (splitSentences text.data) names
          (findMarker (splitSentences text.data)))
        (mainGuestOf_guest_isSome (splitSentences text.data) names
          (findMarker (splitSentences text.data)) hnd hlen)
        hm _ _ _ p hp'
      refine ⟨s, hs, ?_⟩
      rcases hmem with h3 | h3
      · exact Or.inl h3
      · exact Or.inr (h3 ▸ List.mem_cons_self _ _)

/-- A two-name episode with a word-review marker, used to witness the
amended attribution-coverage theorem. -/
def c2Text : String :=
  "Soy Maria. Pero primero, estas son algunas palabras. Hola Carlos. Bien. Gracias por escuchar."

theorem c2_attribution_coverage_witness :
    (["Carlos", "Maria"] : List String).Nodup ∧
    (2 ≤ (["Carlos", "Maria"] : List String).length ∧
      markerTruthy (findMarker (splitSentences c2Text.data)) = true) ∧
    ((identifySpeakersS c2Text ["Carlos", "Maria"] false).map Prod.fst
        = ((splitSentences c2Text.data).map pyStripS).filter (fun s => s ≠ "") ∧
      ∀ p ∈ identifySpeakersS c2Text ["Carlos", "Maria"] false,
        ∃ s, p.2 = some s ∧
          (s ∈ (["Carlos", "Maria"] : List String) ∨
            s ∈ (["Narrator", "Speaker 1", "Speaker 2"] : List String))) :=
  ⟨by decide, ⟨by decide, by decide⟩,
    c2_attribution_coverage c2Text ["Carlos", "Maria"] false (by decide)
      (Or.inr ⟨by decide, by decide⟩)⟩

/-- Number of leading (non-empty, stripped) sentences consumed by the
narrator phase: sentences are consumed while fewer than four words have
been counted; the sentence reaching or crossing the four-word boundary is
consumed and ends the phase. -/
def narratorConsumed : Nat → List String → Nat
  | _, [] => 0
  | wc, s :: rest =>
    let w := countWords s.data
    if wc + w ≤ 4 then
      if 4 ≤ wc + w then 1 else 1 + narratorConsumed (wc + w) rest
    else 1

/-- The narrator block in the active phase (episode start, fewer than four
words consumed). -/
theorem attrNarr_active (ctx : AttrCtx) (wc : Nat) (last : Option String)
    (raw : String) (hep : ctx.is_episode_start = true) :
    attrNarr ctx ⟨wc, false, last⟩ raw =
      (if wc + countWords (pyStrip raw.data) ≤ 4 then
        (some "Narrator", wc + countWords (pyStrip raw.data),
          decide (4 ≤ wc + countWords (pyStrip raw.data)))
      else if wc < 4 then
        (some "Narrator", wc + countWords (pyStrip raw.data), true)
      else (none, wc, false)) := by
  simp only [attrNarr]
  rw [if_pos ⟨hep, by simp⟩]

/-- The narrator block after the phase has completed. -/
theorem attrNarr_done (ctx : AttrCtx) (wc : Nat) (last : Option String)
    (raw : String) :
    attrNarr ctx ⟨wc, true, last⟩ raw = (none, wc, true) := by
  simp only [attrNarr]
  rw [if_neg (by simp)]

/-- A dialog-phase-shaped label is never `"Narrator"` when `"Narrator"` is
not a detected name. -/
theorem labelOk_ne_narrator (ctx : AttrCtx)
    (hmain : ctx.main_speaker ∈ ctx.speaker_names)
    (hg : ∀ g, ctx.guest_speaker = some g → g ∈ ctx.speaker_names)
    (hnar : "Narrator" ∉ ctx.speaker_names) (o : Option String)
    (h : LabelOk ctx o) : o ≠ some "Narrator" := by
  unfold LabelOk at h
  rcases h with h | h | ⟨n, h, hn⟩
  · intro hc
    rw [hc] at h
    exact hnar (hg "Narrator" h.symm)
  · intro hc
    rw [hc] at h
    injection h with h
    exact hnar (h ▸ hmain)
  · intro hc
    rw [hc] at h
    injection h with h
    exact hnar (h ▸ hn)

/-- After the narrator phase has completed, no later sentence is labeled
`"Narrator"`. -/
theorem attrWalk_post (ctx : AttrCtx)
    (hmain : ctx.main_speaker ∈ ctx.speaker_names)
    (hg : ∀ g, ctx.guest_speaker = some g → g ∈ ctx.speaker_names)
    (hnar : "Narrator" ∉ ctx.speaker_names) :
    ∀ (sents : List String) (wc : Nat) (last : Option String) (i : Nat),
      ∀ p ∈ attrWalk ctx ⟨wc, true, last⟩ i sents, p.2 ≠ some "Narrator" := by
  intro sents
  induction sents with
  | nil => intro wc last i p hp; cases hp
  | cons raw rest ih =>
    intro wc last i p hp
    by_cases hemp : (pyStrip raw.data).isEmpty = true
    · have he := List.isEmpty_iff.mp hemp
      simp only [attrWalk, attrStep_empty ctx _ i raw he] at hp
      exact ih wc last (i + 1) p hp
    · have hemp' : (pyStrip raw.data).isEmpty = false := Bool.eq_false_iff.mpr hemp
      simp only [attrWalk, attrStep_nonempty_eq ctx _ i raw hemp',
        attrNarr_done ctx wc last raw] at hp
      have hl : attrLabel ctx ⟨wc, true, last⟩ i raw
          = phaseChain ctx ⟨wc, true, last⟩ i (pyStrip raw.data) := by
        simp only [attrLabel, attrNarr_done ctx wc last raw]
      rcases List.mem_cons.mp hp with h1 | h1
      · subst h1
        show attrLabel ctx ⟨wc, true, last⟩ i raw ≠ some "Narrator"
        rw [hl]
        rcases phaseChain_labelOk ctx ⟨wc, true, last⟩ i (pyStrip raw.data) with
          h2 | h2
        · rw [h2]; intro hc; cases hc
        · exact labelOk_ne_narrator ctx hmain hg hnar _ h2
      · exact ih wc _ (i + 1) p h1

/-- In the active narrator phase, the first `narratorConsumed` emitted
sentences get the narrator label (or a self-introduced detected name), and
no later sentence is labeled `"Narrator"`. -/
theorem attrWalk_narrator_pre (ctx : AttrCtx)
    (hep : ctx.is_episode_start = true)
    (hmain : ctx.main_speaker ∈ ctx.speaker_names)
    (hg : ∀ g, ctx.guest_speaker = some g → g ∈ ctx.speaker_names)
    (hnar : "Narrator" ∉ ctx.speaker_names) :
    ∀ (sents : List String) (wc : Nat) (last : Option String) (i : Nat),
      wc < 4 →
      (∀ p ∈ (attrWalk ctx ⟨wc, false, last⟩ i sents).take
          (narratorConsumed wc ((sents.map pyStripS).filter (fun s => s ≠ ""))),
        p.2 = some (match ctx.speaker_names.find?
            (fun n => reTest (mSelfIntroName n) p.1.data) with
          | some n => n
          | none => "Narrator")) ∧
      ∀ p ∈ (attrWalk ctx ⟨wc, false, last⟩ i sents).drop
          (narratorConsumed wc ((sents.map pyStripS).filter (fun s => s ≠ ""))),
        p.2 ≠ some "Narrator" := by
  intro sents
  induction sents with
  | nil =>
    intro wc last i _
    constructor
    · intro p hp
      rw [show attrWalk ctx ⟨wc, false, last⟩ i [] = [] from rfl] at hp
      simp at hp
    · intro p hp
      rw [show attrWalk ctx ⟨wc, false, last⟩ i [] = [] from rfl] at hp
      simp at hp
  | cons raw rest ih =>
    intro wc last i hwc
    by_cases hemp : (pyStrip raw.data).isEmpty = true
    · have he := List.isEmpty_iff.mp hemp
      have hstr : pyStripS raw = "" := by rw [pyStripS, he]
      have hfe : (((raw :: rest).map pyStripS).filter (fun s => s ≠ ""))
          = ((rest.map pyStripS).filter (fun s => s ≠ "")) := by
        simp only [List.map_cons, List.filter_cons, hstr]
        rw [if_neg (by simp)]
      have hwe : attrWalk ctx ⟨wc, false, last⟩ i (raw :: rest)
          = attrWalk ctx ⟨wc, false, last⟩ (i + 1) rest := by
        simp only [attrWalk, attrStep_empty ctx _ i raw he]
      rw [hwe, hfe]
      exact ih wc last (i + 1) hwc
    · have hemp' : (pyStrip raw.data).isEmpty = false := Bool.eq_false_iff.mpr hemp
      have hstr : pyStripS raw ≠ "" := fun hc =>
        hemp ((stringMk_eq_empty_iff _).mp hc ▸ rfl)
      have hfe : (((raw :: rest).map pyStripS).filter (fun s => s ≠ ""))
          = pyStripS raw :: ((rest.map pyStripS).filter (fun s => s ≠ "")) := by
        simp only [List.map_cons, List.filter_cons]
        rw [if_pos (decide_eq_true hstr)]
      have hwe : attrWalk ctx ⟨wc, false, last⟩ i (raw :: rest)
          = (String.mk (pyStrip raw.data), attrLabel ctx ⟨wc, false, last⟩ i raw)
            :: attrWalk ctx
                ⟨(attrNarr ctx ⟨wc, false, last⟩ raw).2.1,
                 (attrNarr ctx ⟨wc, false, last⟩ raw).2.2,
                 attrLabel ctx ⟨wc, false, last⟩ i raw⟩ (i + 1) rest := by
        simp only [attrWalk, attrStep_nonempty_eq ctx _ i raw hemp']
      rw [hwe, hfe]
      by_cases h1 : wc + countWords (pyStrip raw.data) ≤ 4
      · by_cases h2 : 4 ≤ wc + countWords (pyStrip raw.data)
        · -- the sentence reaching the boundary: phase completes here
          have hn : attrNarr ctx ⟨wc, false, last⟩ raw
              = (some "Narrator", wc + countWords (pyStrip raw.data), true) := by
            rw [attrNarr_active ctx wc last raw hep, if_pos h1, decide_eq_true h2]
          have hk : narratorConsumed wc
              (pyStripS raw :: ((rest.map pyStripS).filter (fun s => s ≠ "")))
              = 1 := by
            simp only [narratorConsumed]
            rw [show countWords (pyStripS raw).data
                = countWords (pyStrip raw.data) from rfl]
            rw [if_pos h1, if_pos h2]
          have hl : attrLabel ctx ⟨wc, false, last⟩ i raw
              = some (match ctx.speaker_names.find?
                  (fun n => reTest (mSelfIntroName n) (pyStrip raw.data)) with
                | some n => n
                | none => "Narrator") := by
            simp only [attrLabel, hn]
            cases ctx.speaker_names.find?
                (fun n => reTest (mSelfIntroName n) (pyStrip raw.data)) <;> rfl
          rw [hk]
          simp only [hn]
          constructor
          · intro p hp
            rw [List.take_succ_cons, List.take_zero] at hp
            rcases List.mem_cons.mp hp with h3 | h3
            · subst h3
              exact hl
            · cases h3
          · intro p hp
            rw [List.drop_succ_cons, List.drop_zero] at hp
            exact attrWalk_post ctx hmain hg hnar rest
              (wc + countWords (pyStrip raw.data)) _ (i + 1) p hp
        · -- still inside the phase
          have h2' : wc + countWords (pyStrip raw.data) < 4 := by omega
          have hn : attrNarr ctx ⟨wc, false, last⟩ raw
              = (some "Narrator", wc + countWords (pyStrip raw.data), false) := by
            rw [attrNarr_active ctx wc last raw hep, if_pos h1, decide_eq_false h2]
          have hk : narratorConsumed wc
              (pyStripS raw :: ((rest.map pyStripS).filter (fun s => s ≠ "")))
              = narratorConsumed (wc + countWords (pyStrip raw.data))
                  ((rest.map pyStripS).filter (fun s => s ≠ "")) + 1 := by
            simp only [narratorConsumed]
            rw [show countWords (pyStripS raw).data
                = countWords (pyStrip raw.data) from rfl]
            rw [if_pos h1, if_neg h2, Nat.add_comm]
          have hl : attrLabel ctx ⟨wc, false, last⟩ i raw
              = some (match ctx.speaker_names.find?
                  (fun n => reTest (mSelfIntroName n) (pyStrip raw.data)) with
                | some n => n
                | none => "Narrator") := by
            simp only [attrLabel, hn]
            cases ctx.speaker_names.find?
                (fun n => reTest (mSelfIntroName n) (pyStrip raw.data)) <;> rfl
          rw [hk]
          simp only [hn]
          obtain ⟨ih1, ih2⟩ := ih (wc + countWords (pyStrip raw.data))
            (attrLabel ctx ⟨wc, false, last⟩ i raw) (i + 1) h2'
          constructor
          · intro p hp
            rw [List.take_succ_cons] at hp
            rcases List.mem_cons.mp hp with h3 | h3
            · subst h3
              exact hl
            · exact ih1 p h3
          · intro p hp
            rw [List.drop_succ_cons] at hp
            exact ih2 p hp
      · -- crossing sentence: the whole sentence is labeled Narrator
        have hn : attrNarr ctx ⟨wc, false, last⟩ raw
            = (some "Narrator", wc + countWords (pyStrip raw.data), true) := by
          rw [attrNarr_active ctx wc last raw hep, if_neg h1, if_pos hwc]
        have hk : narratorConsumed wc
            (pyStripS raw :: ((rest.map pyStripS).filter (fun s => s ≠ "")))
            = 1 := by
          simp only [narratorConsumed]
          rw [show countWords (pyStripS raw).data
              = countWords (pyStrip raw.data) from rfl]
          rw [if_neg h1]
        have hl : attrLabel ctx ⟨wc, false, last⟩ i raw
            = some (match ctx.speaker_names.find?
                (fun n => reTest (mSelfIntroName n) (pyStrip raw.data)) with
              | some n => n
              | none => "Narrator") := by
          simp only [attrLabel, hn]
          cases ctx.speaker_names.find?
              (fun n => reTest (mSelfIntroName n) (pyStrip raw.data)) <;> rfl
        rw [hk]
        simp only [hn]
        constructor
        · intro p hp
          rw [List.take_succ_cons, List.take_zero] at hp
          rcases List.mem_cons.mp hp with h3 | h3
          · subst h3
            exact hl
          · cases h3
        · intro p hp
          rw [List.drop_succ_cons, List.drop_zero] at hp
          exact attrWalk_post ctx hmain hg hnar rest
            (wc + countWords (pyStrip raw.data)) _ (i + 1) p hp

/-- C5 counterexample: for the crossing sentence `"a b c d e f"` (six
words, one word needed to reach the four-word boundary, so fewer than half
its words are needed) the source still labels the whole sentence Narrator:
both halves of the half-word test assign Narrator. -/
theorem c5_counterexample :
    (identifySpeakersS "Uno dos tres. a b c d e f. luego mas cosas."
        ["Maria", "Carlos"] true).get? 1 = some ("a b c d e f", some "Narrator") ∧
    countWords ("Uno dos tres").data = 3 ∧
    countWords ("a b c d e f").data = 6 ∧
    2 * (4 - 3) < 6 := by
  refine ⟨by decide, by decide, by decide, by decide⟩

/-- C5 (amended): with the episode-start flag set and at least one
detected name, the first `narratorConsumed` non-empty sentences are
labeled Narrator — the crossing sentence always included, a
self-introduction of a detected name overriding the label — and once four
words are consumed no later sentence is labeled Narrator ("Narrator" not
itself being a detected name). -/
theorem c5_narrator_phase (text : String) (names : List String)
    (hne : names ≠ []) (hnar : "Narrator" ∉ names) :
    (∀ p ∈ (identifySpeakersS text names true).take
        (narratorConsumed 0
          (((splitSentences text.data).map pyStripS).filter (fun s => s ≠ ""))),
      p.2 = some (match names.find?
          (fun n => reTest (mSelfIntroName n) p.1.data) with
        | some n => n
        | none => "Narrator")) ∧
    ∀ p ∈ (identifySpeakersS text names true).drop
        (narratorConsumed 0
          (((splitSentences text.data).map pyStripS).filter (fun s => s ≠ ""))),
      p.2 ≠ some "Narrator" := by
  have hie : names.isEmpty = false := by
    cases names with
    | nil => exact absurd rfl hne
    | cons a t => rfl
  have hids : identifySpeakersS text names true
      = attrWalk
          ⟨names,
           (mainGuestOf (splitSentences text.data) names
              (findMarker (splitSentences text.data))).1,
           (mainGuestOf (splitSentences text.data) names
              (findMarker (splitSentences text.data))).2,
           findMarker (splitSentences text.data),
           computeHGI
             (mainGuestOf (splitSentences text.data) names
                (findMarker (splitSentences text.data))).1
             (mainGuestOf (splitSentences text.data) names
                (findMarker (splitSentences text.data))).2,
           true⟩
          ⟨0, false, none⟩ 0 (splitSentences text.data) :=
    identifySpeakers_nonempty text.data names true hie
  rw [hids]
  exact attrWalk_narrator_pre _ rfl
    (mainGuestOf_main_mem _ names _ hne)
    (mainGuestOf_guest_mem _ names _)
    hnar
    (splitSentences text.data) 0 none 0 (by omega)

/-- An episode opening with a five-word narrator sentence, used to witness
the narrator-phase theorem. -/
def c5Text : String := "Uno dos tres cuatro cinco. Soy Maria. Hola que tal."

theorem c5_narrator_phase_witness :
    (["Maria", "Carlos"] : List String) ≠ [] ∧
    "Narrator" ∉ (["Maria", "Carlos"] : List String) ∧
    ((∀ p ∈ (identifySpeakersS c5Text ["Maria", "Carlos"] true).take
        (narratorConsumed 0
          (((splitSentences c5Text.data).map pyStripS).filter (fun s => s ≠ ""))),
      p.2 = some (match (["Maria", "Carlos"] : List String).find?
          (fun n => reTest (mSelfIntroName n) p.1.data) with
        | some n => n
        | none => "Narrator")) ∧
    ∀ p ∈ (identifySpeakersS c5Text ["Maria", "Carlos"] true).drop
        (narratorConsumed 0
          (((splitSentences c5Text.data).map pyStripS).filter (fun s => s ≠ ""))),
      p.2 ≠ some "Narrator") :=
  ⟨by decide, by decide,
    c5_narrator_phase c5Text ["Maria", "Carlos"] (by decide) (by decide)⟩

/-! ## Partition and round-trip of the episode splitter (C1) -/

/-- The proximity filter never returns an empty split list. -/
theorem proximityFilter_ne_nil (minC L : Nat) (fs : List Nat) :
    proximityFilter minC L fs ≠ [] := by
  unfold proximityFilter
  refine foldl_preserves_mem _ (fun b => b ≠ []) fs.tail ?_ [fs.headD 0] (by simp)
  intro b a _ hb
  split
  · simp
  · split
    · split
      · simp
      · exact hb
    · simp

/-- `ensureEndsAt` makes the last split the text end. -/
theorem ensureEndsAt_getLast (L : Nat) (l : List Nat) (h : l ≠ []) :
    (ensureEndsAt L l).getLast? = some L := by
  unfold ensureEndsAt
  split
  · exact List.getLast?_concat l
  · rename_i hcond
    have hld : l.getLastD 0 = L := not_not.mp hcond
    cases hgl : l.getLast? with
    | none => exact absurd (List.getLast?_eq_none_iff.mp hgl) h
    | some x =>
      rw [List.getLastD_eq_getLast?, hgl] at hld
      exact congrArg some hld

/-- Whatever the Refiner does, the returned split list ends at the text
end. -/
theorem filteredSplits_getLast (text : List Char) (d : Option ℚ) (ss : List Nat)
    (hfs : filteredSplits text d = .ok ss) :
    ss.getLast? = some text.length := by
  simp only [filteredSplits] at hfs
  cases hsp : splitPassGo (ctxOf text d)
      ((text.length + 4) * (text.length + 4) + 100)
      (mergePass (ctxOf text d) (scannerCandidates text))
      [(mergePass (ctxOf text d) (scannerCandidates text)).headD 0] 1 with
  | error e => rw [hsp] at hfs; cases hfs
  | ok finalS =>
    rw [hsp] at hfs
    injection hfs with hfs
    rw [← hfs]
    exact ensureEndsAt_getLast _ _ (proximityFilter_ne_nil _ _ _)

/-- A `filterMap` whose function succeeds everywhere is a `map`. -/
theorem filterMap_eq_map_of_some {α β : Type} (f : α → Option β) (g : α → β) :
    ∀ l : List α, (∀ a ∈ l, f a = some (g a)) → l.filterMap f = l.map g
  | [], _ => rfl
  | a :: l, h => by
    rw [List.filterMap_cons, h a (List.mem_cons_self a l), List.map_cons,
      filterMap_eq_map_of_some f g l (fun x hx => h x (List.mem_cons_of_mem a hx))]

/-- When every span is long enough, episode creation keeps every span. -/
theorem episodesFromSplits_eq_map (text : List Char) (ss : List Nat)
    (hbig : ∀ pr ∈ ss.zip ss.tail,
      100 < (pyStrip (pySlice text pr.1 pr.2)).length) :
    episodesFromSplits text ss
      = (ss.zip ss.tail).map
          (fun pr => String.mk (pyStrip (pySlice text pr.1 pr.2))) := by
  unfold episodesFromSplits
  refine filterMap_eq_map_of_some _ _ _ ?_
  intro pr hpr
  simp only
  rw [if_pos (hbig pr hpr)]

/-- In a `≤`-chain the head is at most the last element. -/
theorem chain_le_head_last : ∀ (xs : List Nat) (x y : Nat),
    List.Chain' (· ≤ ·) (x :: xs) → (x :: xs).getLast? = some y → x ≤ y
  | [], x, y, _, h => by
    rw [List.getLast?_singleton] at h
    injection h with h
    omega
  | z :: xs, x, y, hc, h => by
    have h1 : x ≤ z := (List.chain'_cons.mp hc).1
    have h2 : z ≤ y := chain_le_head_last xs z y (List.chain'_cons.mp hc).2
      (by rw [← h]; exact List.getLast?_cons_cons.symm)
    omega

/-- An empty Python slice. -/
theorem pySlice_self (l : List Char) (a : Nat) : pySlice l a a = [] := by
  unfold pySlice
  exact List.drop_eq_nil_of_le (le_trans (List.length_take_le a l) (le_refl a))

/-- Dropping from a prefix and appending the remainder drops from the
whole list. -/
theorem drop_take_append {α : Type} (u : List α) (a b : Nat) (hab : a ≤ b) :
    (u.take b).drop a ++ u.drop b = u.drop a := by
  by_cases hlen : u.length ≤ b
  · rw [List.take_of_length_le hlen, List.drop_eq_nil_of_le hlen, List.append_nil]
  · conv_rhs => rw [← List.take_append_drop b u]
    rw [List.drop_append_eq_append_drop]
    congr 1
    rw [List.length_take, Nat.min_eq_left (le_of_not_le hlen),
      Nat.sub_eq_zero_of_le hab, List.drop_zero]

/-- Consecutive Python slices concatenate. -/
theorem pySlice_append (l : List Char) (a b c : Nat) (hab : a ≤ b)
    (hbc : b ≤ c) : pySlice l a b ++ pySlice l b c = pySlice l a c := by
  unfold pySlice
  rw [show l.take b = (l.take c).take b by
    rw [List.take_take, Nat.min_eq_left hbc]]
  exact drop_take_append (l.take c) a b hab

/-- Flattening the consecutive spans of a `≤`-chain of offsets yields the
slice from the first to the last offset. -/
theorem slices_flatten (l : List Char) : ∀ (ss : List Nat) (x y : Nat),
    List.Chain' (· ≤ ·) (x :: ss) → (x :: ss).getLast? = some y →
    (((x :: ss).zip ss).map (fun pr => pySlice l pr.1 pr.2)).flatten
      = pySlice l x y
  | [], x, y, _, h => by
    injection h with h
    subst h
    simp [pySlice_self]
  | z :: ss, x, y, hc, h => by
    have h1 : x ≤ z := (List.chain'_cons.mp hc).1
    have hc2 : List.Chain' (· ≤ ·) (z :: ss) := (List.chain'_cons.mp hc).2
    have hlast : (z :: ss).getLast? = some y := by
      rw [← h]; exact List.getLast?_cons_cons.symm
    have h2 : z ≤ y := chain_le_head_last ss z y hc2 hlast
    rw [List.zip_cons_cons, List.map_cons, List.flatten_cons,
      slices_flatten l ss z y hc2 hlast]
    exact pySlice_append l x z y h1 h2

/-- The leading whitespace removed by `str.strip()`. -/
def stripPadL (l : List Char) : List Char := l.takeWhile isPySpace

/-- The trailing whitespace removed by `str.strip()`. -/
def stripPadR (l : List Char) : List Char :=
  (((l.dropWhile isPySpace).reverse).takeWhile isPySpace).reverse

/-- Pads around the stripped text reproduce the original text. -/
theorem pyStrip_decomp (l : List Char) :
    stripPadL l ++ (pyStrip l ++ stripPadR l) = l := by
  have h1 : pyStrip l ++ stripPadR l = l.dropWhile isPySpace := by
    unfold pyStrip stripPadR
    rw [← List.reverse_append, List.takeWhile_append_dropWhile,
      List.reverse_reverse]
  rw [h1]
  exact List.takeWhile_append_dropWhile isPySpace l

/-- The left pad is whitespace-only. -/
theorem stripPadL_ws (l : List Char) : ∀ c ∈ stripPadL l, isPySpace c = true :=
  fun _ hc => List.mem_takeWhile_imp hc

/-- The right pad is whitespace-only. -/
theorem stripPadR_ws (l : List Char) : ∀ c ∈ stripPadR l, isPySpace c = true := by
  intro c hc
  unfold stripPadR at hc
  rw [List.mem_reverse] at hc
  exact List.mem_takeWhile_imp hc

/-- C1 (amended): whenever the Refiner returns a strictly increasing split
list starting at offset 0 all of whose spans strip to more than 100
characters, the episode list is exactly the stripped consecutive spans in
order, the split list ends at the text end, and concatenating the episodes
with their trimmed whitespace pads re-inserted reproduces the input text
with no gaps and no overlaps. -/
theorem c1_partition_roundtrip (text : String) (d : Option ℚ) (ss : List Nat)
    (hne : text ≠ "")
    (hfs : filteredSplits text.data d = .ok ss)
    (hchain : ss.Chain' (· < ·))
    (hhead : ss.head? = some 0)
    (hbig : ∀ pr ∈ ss.zip ss.tail,
      100 < (pyStrip (pySlice text.data pr.1 pr.2)).length) :
    splitByEpisodePatternsS text d
      = .ok ((ss.zip ss.tail).map
          (fun pr => String.mk (pyStrip (pySlice text.data pr.1 pr.2)))) ∧
    ss.getLast? = some text.data.length ∧
    ∃ pads : List (List Char × List Char),
      pads.length = (ss.zip ss.tail).length ∧
      (∀ q ∈ pads, (∀ c ∈ q.1, isPySpace c = true) ∧
        (∀ c ∈ q.2, isPySpace c = true)) ∧
      ((pads.zip ((ss.zip ss.tail).map
          (fun pr => String.mk (pyStrip (pySlice text.data pr.1 pr.2))))).map
        (fun z => z.1.1 ++ (z.2.data ++ z.1.2))).flatten = text.data := by
  have hdne : text.data ≠ [] := by
    intro h
    apply hne
    cases text with
    | mk dt => exact (stringMk_eq_empty_iff dt).mpr h
  have hL0 : text.data.length ≠ 0 := by
    intro h
    exact hdne (List.length_eq_zero.mp h)
  have hlast : ss.getLast? = some text.data.length :=
    filteredSplits_getLast text.data d ss hfs
  obtain ⟨t, rfl⟩ : ∃ t, ss = 0 :: t := by
    cases ss with
    | nil => cases hhead
    | cons a t =>
      injection hhead with hhead
      exact ⟨t, by rw [hhead]⟩
  obtain ⟨b, r, rfl⟩ : ∃ b r, t = b :: r := by
    cases t with
    | nil =>
      rw [List.getLast?_singleton] at hlast
      injection hlast with hlast
      exact absurd hlast.symm hL0
    | cons b r => exact ⟨b, r, rfl⟩
  have hmap : episodesFromSplits text.data (0 :: b :: r)
      = ((0 :: b :: r).zip (b :: r)).map
          (fun pr => String.mk (pyStrip (pySlice text.data pr.1 pr.2))) :=
    episodesFromSplits_eq_map text.data (0 :: b :: r) hbig
  have hie : (((0 :: b :: r).zip (b :: r)).map
      (fun pr => String.mk (pyStrip (pySlice text.data pr.1 pr.2)))).isEmpty
        = false := rfl
  refine ⟨?_, hlast, ?_⟩
  · show split_by_episode_patterns text.data d = _
    simp only [split_by_episode_patterns, hfs, hmap, hie, Bool.false_eq_true,
      if_false, List.tail_cons]
  · refine ⟨((0 :: b :: r).zip (b :: r)).map
      (fun pr => (stripPadL (pySlice text.data pr.1 pr.2),
        stripPadR (pySlice text.data pr.1 pr.2))), by rw [List.length_map]; rfl,
      ?_, ?_⟩
    · intro q hq
      rw [List.mem_map] at hq
      obtain ⟨pr, _, rfl⟩ := hq
      exact ⟨stripPadL_ws _, stripPadR_ws _⟩
    · rw [show (0 :: b :: r).tail = b :: r from rfl]
      rw [List.zip_map', List.map_map]
      have hcong : ∀ pr ∈ (0 :: b :: r).zip (b :: r),
          ((fun (z : (List Char × List Char) × String) =>
              z.1.1 ++ (z.2.data ++ z.1.2)) ∘
            (fun pr => ((stripPadL (pySlice text.data pr.1 pr.2),
              stripPadR (pySlice text.data pr.1 pr.2)),
              String.mk (pyStrip (pySlice text.data pr.1 pr.2))))) pr
            = pySlice text.data pr.1 pr.2 := by
        intro pr _
        exact pyStrip_decomp (pySlice text.data pr.1 pr.2)
      rw [List.map_congr_left hcong]
      rw [slices_flatten text.data (b :: r) 0 text.data.length
        (hchain.imp (fun a c h => le_of_lt h)) hlast]
      unfold pySlice
      rw [List.drop_zero, List.take_length]

/-- A 152-character text with no scanner patterns: the Refiner returns the
single span `[0, 152]`, which satisfies all amended hypotheses. -/
def c1Small : String :=
  "el perro corre mucho por el campo verde. el gato ve la luna clara. la vaca come pasto fresco. el sol brilla fuerte hoy. la casa es grande y bonita aqui."

theorem c1_partition_roundtrip_witness :
    c1Small ≠ "" ∧
    filteredSplits c1Small.data none = .ok [0, 152] ∧
    ([0, 152] : List Nat).Chain' (· < ·) ∧
    ([0, 152] : List Nat).head? = some 0 ∧
    (∀ pr ∈ ([0, 152] : List Nat).zip ([0, 152] : List Nat).tail,
      100 < (pyStrip (pySlice c1Small.data pr.1 pr.2)).length) ∧
    (splitByEpisodePatternsS c1Small none
        = .ok ((([0, 152] : List Nat).zip ([0, 152] : List Nat).tail).map
            (fun pr => String.mk (pyStrip (pySlice c1Small.data pr.1 pr.2)))) ∧
      ([0, 152] : List Nat).getLast? = some c1Small.data.length ∧
      ∃ pads : List (List Char × List Char),
        pads.length = (([0, 152] : List Nat).zip
          ([0, 152] : List Nat).tail).length ∧
        (∀ q ∈ pads, (∀ c ∈ q.1, isPySpace c = true) ∧
          (∀ c ∈ q.2, isPySpace c = true)) ∧
        ((pads.zip ((([0, 152] : List Nat).zip ([0, 152] : List Nat).tail).map
            (fun pr => String.mk (pyStrip (pySlice c1Small.data pr.1 pr.2))))).map
          (fun z => z.1.1 ++ (z.2.data ++ z.1.2))).flatten = c1Small.data) :=
  ⟨by decide, by decide, by simp, by decide, by decide,
    c1_partition_roundtrip c1Small none [0, 152] (by decide) (by decide)
      (by simp) (by decide) (by decide)⟩
